import Mathlib

/-!
# Verification of the F1 2019 telemetry capture pipeline

A shallow embedding of the two-stage capture pipeline (`main.py`) and the
session/driver state tracker (`Game.py`) of the `F1_2019` repository,
together with proofs about the claims of its specification.

Modelling conventions:
* Python dictionaries become association lists (`FieldMap`) with Python's
  semantics: setting an existing key updates it in place (keeping its
  position), setting a fresh key appends it, `del` removes it.
* Scalar payload values (floats, ints, strings) are opaque `Value`s; the
  pipeline only moves them around, never computes with them.
* Fallible Python code (out-of-range list indexing, `KeyError`,
  `.decode` on a non-bytes value) is modelled with `Option`: `none` means
  the Python code would raise.
* The external `f1_2019_telemetry` packet library is modelled at its
  interface: typed packet structures whose `fields` member is the field
  dictionary of the underlying ctypes structure.
-/

set_option autoImplicit false

namespace F1Spec

/-- An opaque scalar or array value stored in a packet field / record field. -/
inductive Value where
  | vNat (n : Nat)
  | vInt (i : Int)
  | vStr (s : String)
  /-- A raw byte string (Python `bytes`), before `.decode("utf-8")`. -/
  | vBytes (s : String)
  | vNull
  | vArr (l : List Value)

/-- A Python dictionary with string keys, in insertion order. -/
structure FieldMap where
  entries : List (String × Value)

namespace FieldMap

/-- Lookup: first entry with the given key (keys are unique in practice). -/
def getEntries? : List (String × Value) → String → Option Value
  | [], _ => none
  | (k0, v0) :: rest, k => if k0 = k then some v0 else getEntries? rest k

def get? (m : FieldMap) (k : String) : Option Value :=
  getEntries? m.entries k

/-- Model of `d[k] = v`: replace the existing entry in place, else append. -/
def setEntries : List (String × Value) → String → Value → List (String × Value)
  | [], k, v => [(k, v)]
  | (k0, v0) :: rest, k, v =>
    if k0 = k then (k, v) :: rest else (k0, v0) :: setEntries rest k v

def set (m : FieldMap) (k : String) (v : Value) : FieldMap :=
  ⟨setEntries m.entries k v⟩

/-- Model of `del d[k]` (total model; the source only deletes keys that exist). -/
def eraseEntries : List (String × Value) → String → List (String × Value)
  | [], _ => []
  | (k0, v0) :: rest, k =>
    if k0 = k then eraseEntries rest k else (k0, v0) :: eraseEntries rest k

def erase (m : FieldMap) (k : String) : FieldMap :=
  ⟨eraseEntries m.entries k⟩

theorem getEntries?_set (l : List (String × Value)) (k k' : String) (v : Value) :
    getEntries? (setEntries l k v) k' = if k' = k then some v else getEntries? l k' := by
  induction l with
  | nil =>
    by_cases h : k' = k
    · simp [setEntries, getEntries?, h]
    · simp [setEntries, getEntries?, h, Ne.symm h]
  | cons kv rest ih =>
    obtain ⟨k0, v0⟩ := kv
    by_cases h0 : k0 = k
    · subst h0
      by_cases h : k' = k0
      · simp [setEntries, getEntries?, h]
      · simp [setEntries, getEntries?, h, Ne.symm h]
    · by_cases h : k' = k0
      · subst h
        simp [setEntries, getEntries?, h0, Ne.symm h0, ih]
      · simp [setEntries, getEntries?, h0, Ne.symm h, ih]

theorem get?_set (m : FieldMap) (k k' : String) (v : Value) :
    (m.set k v).get? k' = if k' = k then some v else m.get? k' :=
  getEntries?_set m.entries k k' v

theorem getEntries?_erase (l : List (String × Value)) (k k' : String) :
    getEntries? (eraseEntries l k) k' = if k' = k then none else getEntries? l k' := by
  induction l with
  | nil =>
    by_cases h : k' = k <;> simp [eraseEntries, getEntries?, h]
  | cons kv rest ih =>
    obtain ⟨k0, v0⟩ := kv
    by_cases h0 : k0 = k
    · subst h0
      by_cases h : k' = k0
      · subst h
        simp [eraseEntries, getEntries?, ih]
      · simp [eraseEntries, getEntries?, h, Ne.symm h, ih]
    · by_cases h : k' = k0
      · subst h
        simp [eraseEntries, getEntries?, h0, Ne.symm h0, ih]
      · simp [eraseEntries, getEntries?, h0, Ne.symm h, ih]

theorem get?_erase (m : FieldMap) (k k' : String) :
    (m.erase k).get? k' = if k' = k then none else m.get? k' :=
  getEntries?_erase m.entries k k'

end FieldMap

/-- A reception timestamp (`datetime.datetime.utcnow()` in the source).
`stamp` is the instant as a number (used for elapsed-time arithmetic),
`iso` is `strftime('%Y-%m-%dT%H:%M:%SZ')`, `ymdhm` is
`strftime('%Y%m%d_%H%M')`; the formatter itself is external. -/
structure Time where
  stamp : Int
  iso : String
  ymdhm : String

/-- The fixed 23-byte packet header (`PacketHeader` of the decoder library). -/
structure PacketHeader where
  packetFormat : Nat
  gameMajorVersion : Nat
  gameMinorVersion : Nat
  packetVersion : Nat
  packetId : Nat
  sessionUID : Nat
  sessionTime : Value
  frameIdentifier : Nat
  playerCarIndex : Nat

/-- One per-car entry of a MOTION packet. -/
structure CarMotionData where
  fields : FieldMap

structure PacketMotionData where
  header : PacketHeader
  carMotionData : List CarMotionData
  localVelocityX : Value
  localVelocityY : Value
  localVelocityZ : Value
  angularVelocityX : Value
  angularVelocityY : Value
  angularVelocityZ : Value
  angularAccelerationX : Value
  angularAccelerationY : Value
  angularAccelerationZ : Value
  frontWheelsAngle : Value
  suspensionPosition : List Value
  suspensionVelocity : List Value
  suspensionAcceleration : List Value
  wheelSpeed : List Value
  wheelSlip : List Value

structure MarshalZone where
  fields : FieldMap

structure PacketSessionData where
  header : PacketHeader
  marshalZones : List MarshalZone
  trackId : Nat
  m_formula : Nat
  fields : FieldMap

structure LapData where
  fields : FieldMap

structure PacketLapData where
  header : PacketHeader
  lapData : List LapData

structure PacketEventData where
  header : PacketHeader
  fields : FieldMap

/-- One per-car entry of a PARTICIPANTS packet; `name` is already the
decoded UTF-8 driver name (decoding is external and injective here). -/
structure ParticipantData where
  name : String
  fields : FieldMap

structure PacketParticipantsData where
  header : PacketHeader
  numActiveCars : Nat
  participants : List ParticipantData

structure CarSetupData where
  fields : FieldMap

structure PacketCarSetupData where
  header : PacketHeader
  carSetups : List CarSetupData

structure CarTelemetryData where
  fields : FieldMap
  brakesTemperature : List Value
  tyresSurfaceTemperature : List Value
  tyresInnerTemperature : List Value
  tyresPressure : List Value
  surfaceType : List Value

structure PacketCarTelemetryData where
  header : PacketHeader
  carTelemetryData : List CarTelemetryData

structure CarStatusData where
  fields : FieldMap

structure PacketCarStatusData where
  header : PacketHeader
  carStatusData : List CarStatusData

/-- A fully decoded telemetry packet (result of `unpack_udp_packet`). -/
inductive GamePacket where
  | motion (p : PacketMotionData)
  | session (p : PacketSessionData)
  | lap (p : PacketLapData)
  | event (p : PacketEventData)
  | participants (p : PacketParticipantsData)
  | carSetups (p : PacketCarSetupData)
  | carTelemetry (p : PacketCarTelemetryData)
  | carStatus (p : PacketCarStatusData)

def GamePacket.header : GamePacket → PacketHeader
  | .motion p => p.header
  | .session p => p.header
  | .lap p => p.header
  | .event p => p.header
  | .participants p => p.header
  | .carSetups p => p.header
  | .carTelemetry p => p.header
  | .carStatus p => p.header

/-- One InfluxDB point, the unit handed to the Sink. -/
structure Record where
  measurement : String
  tags : FieldMap
  time : String
  fields : FieldMap

/-- Helper: `mapOptM f xs` models a Python loop that builds a list, aborting with an
exception (`none`) at the first failing element. -/
def mapOptM {α β : Type} (f : α → Option β) : List α → Option (List β)
  | [] => some []
  | x :: xs =>
    match f x, mapOptM f xs with
    | some y, some ys => some (y :: ys)
    | _, _ => none

/-- Model of `for i in range(k): ... l[i] ...`: reads slots `0..k-1` of `l`, raising
`IndexError` (modelled as `none`) exactly when `k` exceeds the length. -/
def sliceK {α : Type} (l : List α) (k : Nat) : Option (List α) :=
  if k ≤ l.length then some (l.take k) else none

/-- Reads indices 0,1,2,3 of a wheel array (`IndexError` as `none`). -/
def wheel4 (l : List Value) : Option (Value × Value × Value × Value) :=
  match l.get? 0, l.get? 1, l.get? 2, l.get? 3 with
  | some a, some b, some c, some d => some (a, b, c, d)
  | _, _, _, _ => none

/-- Indexes 0..3 of a `Value` that must be an array (as stored in a fields
dictionary); anything else raises in Python. -/
def wheel4OfValue : Value → Option (Value × Value × Value × Value)
  | .vArr l => wheel4 l
  | _ => none

/-- Writes the four `<base>_RL/_RR/_FL/_FR` fields (indices 0..3). -/
def set4 (m : FieldMap) (base : String) (w : Value × Value × Value × Value) : FieldMap :=
  ((((m.set (base ++ "_RL") w.1).set (base ++ "_RR") w.2.1).set
      (base ++ "_FL") w.2.2.1).set (base ++ "_FR") w.2.2.2)

/-- The tag value for `sessionId` (`None` before a SESSION packet). -/
def sidVal : Option String → Value
  | some s => .vStr s
  | none => .vNull

/-- The `TrackIDs` table of the decoder library (external; lookups outside
0..24 raise `KeyError` in Python, totalised with `""` — no claim uses them). -/
def trackIDs : Nat → String
  | 0 => "Melbourne"
  | 1 => "Paul Ricard"
  | 2 => "Shanghai"
  | 3 => "Sakhir (Bahrain)"
  | 4 => "Catalunya"
  | 5 => "Monaco"
  | 6 => "Montreal"
  | 7 => "Silverstone"
  | 8 => "Hockenheim"
  | 9 => "Hungaroring"
  | 10 => "Spa"
  | 11 => "Monza"
  | 12 => "Singapore"
  | 13 => "Suzuka"
  | 14 => "Abu Dhabi"
  | 15 => "Texas"
  | 16 => "Brazil"
  | 17 => "Austria"
  | 18 => "Sochi"
  | 19 => "Mexico"
  | 20 => "Baku (Azerbaijan)"
  | 21 => "Sakhir Short"
  | 22 => "Silverstone Short"
  | 23 => "Texas Short"
  | 24 => "Suzuka Short"
  | _ => ""

/-- The session-identity string computed in `Game.mySessionId`:
`time.strftime('%Y%m%d_%H%M') + "_" + TrackIDs[packet.trackId] + "_" + str(packet.m_formula)`. -/
def sessionString (t : Time) (trackId formula : Nat) : String :=
  t.ymdhm ++ "_" ++ trackIDs trackId ++ "_" ++ toString formula

/-- The mutable state of `Game.Game` (`Game.py`). -/
structure Game where
  drivers : List String
  sessionID : Option String
  sessionIDBrut : Option Nat
  init : Bool

namespace Game

/-- Python `Game.__init__`. -/
def initial : Game :=
  { drivers := [], sessionID := none, sessionIDBrut := none, init := false }

/-- Python `Game.IsInitialized`: returns the gate and the updated state (the Python
method assigns `self.init` as a side effect). -/
def isInitializedUpd (g : Game) : Bool × Game :=
  if g.init then (true, g)
  else
    let b := decide (0 < g.drivers.length) && g.sessionID.isSome
    (b, { g with init := b })

/-- The per-driver tags dict built by the per-car loops of
`processMotion` / `processLap` / `processCarSetup` / `processCarStatus` /
`processCarTelemetry` (fresh dict per iteration, keys in source order). -/
def driverTags (sid : Option String) (h : PacketHeader) (driver : String) : FieldMap :=
  ⟨[("sessionId", sidVal sid), ("sessionTime", h.sessionTime),
    ("packetId", .vNat h.packetId), ("driver", .vStr driver)]⟩

/-- The aggregate tags dict of `processMotion` / `processEvent` /
`processParticipant` (keys in source order, no driver). -/
def baseTags (sid : Option String) (h : PacketHeader) : FieldMap :=
  ⟨[("sessionId", sidVal sid), ("sessionTime", h.sessionTime),
    ("packetId", .vNat h.packetId)]⟩

/-- The tags dict of `processSession` (note the different key order). -/
def sessTags (sid : Option String) (h : PacketHeader) : FieldMap :=
  ⟨[("sessionTime", h.sessionTime), ("sessionId", sidVal sid),
    ("packetId", .vNat h.packetId)]⟩

/-- The aggregate (`MyMotionData`) fields dict of `processMotion`,
in source insertion order; wheel-array indexing may raise. -/
def motionAggFields (p : PacketMotionData) : Option FieldMap :=
  match wheel4 p.suspensionPosition, wheel4 p.suspensionVelocity,
      wheel4 p.suspensionAcceleration, wheel4 p.wheelSpeed,
      wheel4 p.wheelSlip with
  | some sp, some sv, some sa, some ws, some wl =>
    let m : FieldMap := ⟨[]⟩
    let m := m.set "localVelocityX" p.localVelocityX
    let m := m.set "localVelocityY" p.localVelocityY
    let m := m.set "localVelocityZ" p.localVelocityZ
    let m := m.set "angularVelocityX" p.angularVelocityX
    let m := m.set "angularVelocityY" p.angularVelocityY
    let m := m.set "angularVelocityZ" p.angularVelocityZ
    let m := m.set "angularAccelerationX" p.angularAccelerationX
    let m := m.set "angularAccelerationY" p.angularAccelerationY
    let m := m.set "angularAccelerationZ" p.angularAccelerationZ
    let m := m.set "frontWheelsAngle" p.frontWheelsAngle
    let m := set4 m "suspensionPosition" sp
    let m := set4 m "suspensionVelocity" sv
    let m := set4 m "suspensionAcceleration" sa
    let m := set4 m "wheelSpeed" ws
    let m := set4 m "wheelSlip" wl
    some m
  | _, _, _, _, _ => none

/-- Python `Game.processMotion`. -/
def processMotion (g : Game) (p : PacketMotionData) (t : Time) :
    Option (List Record × Game) :=
  let og := g.isInitializedUpd
  let g1 := og.snd
  if !og.fst then some ([], g1)
  else
    match sliceK p.carMotionData g1.drivers.length, motionAggFields p with
    | some slots, some aggF =>
      let perDriver := (g1.drivers.zip slots).map fun ds =>
        { measurement := "MotionData", tags := driverTags g1.sessionID p.header ds.fst,
          time := t.iso, fields := ds.snd.fields : Record }
      some (perDriver ++
        [{ measurement := "MyMotionData", tags := baseTags g1.sessionID p.header,
           time := t.iso, fields := aggF }], g1)
    | _, _ => none

/-- Python `Game.processCarSetup`. -/
def processCarSetup (g : Game) (p : PacketCarSetupData) (t : Time) :
    Option (List Record × Game) :=
  let og := g.isInitializedUpd
  let g1 := og.snd
  if !og.fst then some ([], g1)
  else
    match sliceK p.carSetups g1.drivers.length with
    | some slots =>
      some ((g1.drivers.zip slots).map fun ds =>
        { measurement := "CarSetupData", tags := driverTags g1.sessionID p.header ds.fst,
          time := t.iso, fields := ds.snd.fields : Record }, g1)
    | none => none

/-- The per-car field expansion of `processCarTelemetry`: the five 4-element
arrays are flattened into `_RL/_RR/_FL/_FR` fields and the array-valued
originals are deleted. -/
def telemetrySlotFields (c : CarTelemetryData) : Option FieldMap :=
  match wheel4 c.brakesTemperature, wheel4 c.tyresSurfaceTemperature,
      wheel4 c.tyresInnerTemperature, wheel4 c.tyresPressure,
      wheel4 c.surfaceType with
  | some bt, some st, some it, some tp, some sf =>
    let m := set4 c.fields "brakesTemperature" bt
    let m := set4 m "tyresSurfaceTemperature" st
    let m := set4 m "tyresInnerTemperature" it
    let m := set4 m "tyresPressure" tp
    let m := set4 m "surfaceType" sf
    some (((((m.erase "surfaceType").erase "tyresPressure").erase
      "tyresInnerTemperature").erase "tyresSurfaceTemperature").erase "brakesTemperature")
  | _, _, _, _, _ => none

/-- One iteration of the `processCarTelemetry` loop: driver name and
telemetry slot to the emitted record (`none` when indexing raises). -/
def telemetryRecord (sid : Option String) (h : PacketHeader) (t : Time)
    (ds : String × CarTelemetryData) : Option Record :=
  match telemetrySlotFields ds.snd with
  | some flds =>
    some { measurement := "CarTelemetryData", tags := driverTags sid h ds.fst,
           time := t.iso, fields := flds }
  | none => none

/-- Python `Game.processCarTelemetry`. -/
def processCarTelemetry (g : Game) (p : PacketCarTelemetryData) (t : Time) :
    Option (List Record × Game) :=
  let og := g.isInitializedUpd
  let g1 := og.snd
  if !og.fst then some ([], g1)
  else
    match sliceK p.carTelemetryData g1.drivers.length with
    | some slots =>
      match mapOptM (telemetryRecord g1.sessionID p.header t)
          (g1.drivers.zip slots) with
      | some recs => some (recs, g1)
      | none => none
    | none => none

/-- The per-car field expansion of `processCarStatus`: `tyresWear` and
`tyresDamage` are read out of the fields dict itself, flattened, deleted. -/
def statusSlotFields (c : CarStatusData) : Option FieldMap :=
  match c.fields.get? "tyresWear", c.fields.get? "tyresDamage" with
  | some twv, some tdv =>
    match wheel4OfValue twv, wheel4OfValue tdv with
    | some tw, some td =>
      let m := set4 c.fields "tyresWear" tw
      let m := set4 m "tyresDamage" td
      some ((m.erase "tyresWear").erase "tyresDamage")
    | _, _ => none
  | _, _ => none

/-- One iteration of the `processCarStatus` loop. -/
def statusRecord (sid : Option String) (h : PacketHeader) (t : Time)
    (ds : String × CarStatusData) : Option Record :=
  match statusSlotFields ds.snd with
  | some flds =>
    some { measurement := "CarStatusData", tags := driverTags sid h ds.fst,
           time := t.iso, fields := flds }
  | none => none

/-- Python `Game.processCarStatus`. -/
def processCarStatus (g : Game) (p : PacketCarStatusData) (t : Time) :
    Option (List Record × Game) :=
  let og := g.isInitializedUpd
  let g1 := og.snd
  if !og.fst then some ([], g1)
  else
    match sliceK p.carStatusData g1.drivers.length with
    | some slots =>
      match mapOptM (statusRecord g1.sessionID p.header t)
          (g1.drivers.zip slots) with
      | some recs => some (recs, g1)
      | none => none
    | none => none

/-- Python `Game.processLap`. -/
def processLap (g : Game) (p : PacketLapData) (t : Time) :
    Option (List Record × Game) :=
  let og := g.isInitializedUpd
  let g1 := og.snd
  if !og.fst then some ([], g1)
  else
    match sliceK p.lapData g1.drivers.length with
    | some slots =>
      some ((g1.drivers.zip slots).map fun ds =>
        { measurement := "LapData", tags := driverTags g1.sessionID p.header ds.fst,
          time := t.iso, fields := ds.snd.fields : Record }, g1)
    | none => none

/-- Python `Game.mySessionId`: recompute the identity only when the raw 64-bit
`sessionUID` differs from the previously seen one; returns `self.sessionID`. -/
def mySessionId (g : Game) (p : PacketSessionData) (t : Time) : Option String × Game :=
  if g.sessionIDBrut ≠ some p.header.sessionUID then
    let g1 := { g with
      sessionIDBrut := some p.header.sessionUID,
      sessionID := some (sessionString t p.trackId p.m_formula) }
    (g1.sessionID, g1)
  else (g.sessionID, g)

/-- Python `Game.processSession`.  The marshal-zone tags dict is created once and
mutated per iteration; every appended zone record aliases it, so when the
batch is serialised all zone records observe its final contents
(`MarshalZoneId = "MarshalZone" + str(n-1)`) — modelled by computing the
final tag map first. The aggregate record gets a freshly rebound dict. -/
def processSession (g : Game) (p : PacketSessionData) (t : Time) :
    List Record × Game :=
  let sg := g.mySessionId p t
  let gB := { sg.snd with sessionID := sg.fst }
  let og := gB.isInitializedUpd
  let g1 := og.snd
  if !og.fst then ([], g1)
  else
    let n := p.marshalZones.length
    let mzTags :=
      if n = 0 then sessTags g1.sessionID p.header
      else (sessTags g1.sessionID p.header).set "MarshalZoneId"
             (.vStr ("MarshalZone" ++ toString (n - 1)))
    let zoneRecs := p.marshalZones.map fun mz =>
      { measurement := "MarshalZones", tags := mzTags,
        time := t.iso, fields := mz.fields : Record }
    let aggF := (p.fields.erase "marshalZones").erase "header"
    (zoneRecs ++
      [{ measurement := "SessionData", tags := sessTags g1.sessionID p.header,
         time := t.iso, fields := aggF }], g1)

/-- Python `Game.processEvent`: the raw `eventStringCode` bytes are decoded to text
(raises if the key is missing or not bytes), the header is stripped. -/
def processEvent (g : Game) (p : PacketEventData) (t : Time) :
    Option (List Record × Game) :=
  let og := g.isInitializedUpd
  let g1 := og.snd
  if !og.fst then some ([], g1)
  else
    match p.fields.get? "eventStringCode" with
    | some (.vBytes s) =>
      let flds := (p.fields.set "eventStringCode" (.vStr s)).erase "header"
      some ([{ measurement := "EventData", tags := baseTags g1.sessionID p.header,
               time := t.iso, fields := flds : Record }], g1)
    | _ => none

/-- One `ParticipantData` record; the per-slot fields dict gets the decoded
`name` written back before being emitted. -/
def participantRecord (tags : FieldMap) (t : Time) (part : ParticipantData) : Record :=
  { measurement := "ParticipantData", tags := tags, time := t.iso,
    fields := part.fields.set "name" (.vStr part.name) }

/-- The tags dict of the Ready branch of `processParticipant` is created once
before the loop and mutated (`dic["driver"] = driver`) each iteration; every
record aliases it, so all carry the final contents (last roster name). -/
def participantFinalTags (sid : Option String) (h : PacketHeader)
    (names : List String) : FieldMap :=
  match names.getLast? with
  | none => baseTags sid h
  | some nm => (baseTags sid h).set "driver" (.vStr nm)

/-- Python `Game.processParticipant`: rebuilds the roster unconditionally; once
Ready it additionally emits one record per active car, slots `0..k-1`.
(The Ready branch also computes `packet.fields` minus `header` into a
variable that is immediately rebound and never observed — omitted.) -/
def processParticipant (g : Game) (p : PacketParticipantsData) (t : Time) :
    Option (List Record × Game) :=
  let og := g.isInitializedUpd
  let g1 := og.snd
  if !og.fst then
    match sliceK p.participants p.numActiveCars with
    | some parts => some ([], { g1 with drivers := parts.map (·.name) })
    | none => none
  else
    match sliceK p.participants p.numActiveCars with
    | some parts =>
      let names := parts.map (·.name)
      some (parts.map (participantRecord (participantFinalTags g1.sessionID p.header names) t),
        { g1 with drivers := names })
    | none => none

end Game

/-- Routing one decoded packet through the tracker
(the `if header.packetId == ...` chain of `process_incoming_packets`,
record lists only). -/
def Game.stepPacket (g : Game) (p : GamePacket) (t : Time) :
    Option (List Record × Game) :=
  match p with
  | .motion pm => g.processMotion pm t
  | .session ps => some (g.processSession ps t)
  | .lap pl => g.processLap pl t
  | .event pe => g.processEvent pe t
  | .participants pp => g.processParticipant pp t
  | .carSetups pc => g.processCarSetup pc t
  | .carTelemetry pt => g.processCarTelemetry pt t
  | .carStatus pc => g.processCarStatus pc t

/-- Feeding a packet sequence through the tracker, keeping only the state
(`none` as soon as one dispatch raises). -/
def runGame (g : Game) : List (GamePacket × Time) → Option Game
  | [] => some g
  | (p, t) :: rest =>
    match g.stepPacket p t with
    | some rg => runGame rg.snd rest
    | none => none

/-- The `jsonMessages` key a packet's records are stored under.
`PacketID`: MOTION 0, SESSION 1, LAP_DATA 2, EVENT 3, PARTICIPANTS 4,
CAR_SETUPS 5, CAR_TELEMETRY 6, CAR_STATUS 7.  The source stores the
CAR_SETUPS branch under `jsonMessages[PacketID.CAR_STATUS]` (main.py:168),
hence key 7 for `carSetups`. -/
def packetKey : GamePacket → Nat
  | .motion _ => 0
  | .session _ => 1
  | .lap _ => 2
  | .event _ => 3
  | .participants _ => 4
  | .carSetups _ => 7
  | .carTelemetry _ => 6
  | .carStatus _ => 7

/-- Header size: `ctypes.sizeof(PacketHeader)` = 23 bytes. -/
def headerSize : Nat := 23

/-- The `HeaderFieldsToPacketType` compatibility table, resolved to
`ctypes.sizeof` of the packet type: `(packetFormat, packetVersion,
packetId) → size`, defined for format 2019, schema version 1. -/
def expectedSize : Nat → Nat → Nat → Option Nat
  | 2019, 1, 0 => some 1343
  | 2019, 1, 1 => some 149
  | 2019, 1, 2 => some 843
  | 2019, 1, 3 => some 32
  | 2019, 1, 4 => some 1104
  | 2019, 1, 5 => some 843
  | 2019, 1, 6 => some 1347
  | 2019, 1, 7 => some 1143
  | _, _, _ => none

/-- One raw UDP datagram: its byte length and the typed packet its bytes
decode to (the header read by `PacketHeader.from_buffer_copy` agrees with
the decoded packet's header, as both come from the same bytes). -/
structure Datagram where
  len : Nat
  packet : GamePacket

/-- A `logging.error` rejection of `process_incoming_packets`. -/
inductive LogEvent where
  | tooShort (len : Nat)
  | unknownType (fmt ver id : Nat)
  | sizeMismatch (fmt ver id len expected : Nat)

/-- The `jsonMessages` dict: packet-type key → latest record batch, in key
insertion order (Python dict assignment replaces in place, appends if new). -/
structure MsgMap where
  entries : List (Nat × List Record)

def MsgMap.setEntries : List (Nat × List Record) → Nat → List Record →
    List (Nat × List Record)
  | [], k, v => [(k, v)]
  | (k0, v0) :: rest, k, v =>
    if k0 = k then (k, v) :: rest else (k0, v0) :: MsgMap.setEntries rest k v

def MsgMap.set (m : MsgMap) (k : Nat) (v : List Record) : MsgMap :=
  ⟨MsgMap.setEntries m.entries k v⟩

/-- The state threaded through one flush cycle of
`process_incoming_packets`. -/
structure FlushState where
  game : Game
  msgs : MsgMap
  logs : List LogEvent

/-- Validation and dispatch of one drained datagram (`main.py:134-172`):
reject if shorter than the header; reject unknown (format, version, id);
reject exact-size mismatch; else decode and route to the tracker, storing
the returned records under the type's `jsonMessages` key. -/
def flushStep (s : FlushState) (tp : Time × Datagram) : Option FlushState :=
  let t := tp.fst
  let d := tp.snd
  if d.len < headerSize then
    some { s with logs := s.logs ++ [.tooShort d.len] }
  else
    let hdr := d.packet.header
    match expectedSize hdr.packetFormat hdr.packetVersion hdr.packetId with
    | none =>
      some { s with logs := s.logs ++
        [.unknownType hdr.packetFormat hdr.packetVersion hdr.packetId] }
    | some sz =>
      if d.len ≠ sz then
        some { s with logs := s.logs ++
          [.sizeMismatch hdr.packetFormat hdr.packetVersion hdr.packetId d.len sz] }
      else
        match s.game.stepPacket d.packet t with
        | some rg =>
          some ⟨rg.snd, s.msgs.set (packetKey d.packet) rg.fst, s.logs⟩
        | none => none

/-- The drained-batch loop of `process_incoming_packets`. -/
def flushRun (s : FlushState) : List (Time × Datagram) → Option FlushState
  | [] => some s
  | tp :: rest =>
    match flushStep s tp with
    | some s1 => flushRun s1 rest
    | none => none

/-- Python `PacketRecorder.process_incoming_packets` over one drained batch,
starting from a tracker state with empty `jsonMessages`; afterwards every
batch in `msgs` (in key insertion order) is submitted to the Sink by one
`write_points` call, empty or not. -/
def processIncomingPackets (g : Game) (tps : List (Time × Datagram)) :
    Option FlushState :=
  flushRun { game := g, msgs := ⟨[]⟩, logs := [] } tps

/-- The state of the `PacketRecorderThread.run` loop: the inactivity timer,
the recorder's tracker, all Sink write calls so far, and the inactivity
observations reported so far. -/
structure LoopState where
  timer : Int
  game : Game
  writes : List (List Record)
  obs : List Int

/-- One flush tick (`main.py:238-246`): a non-empty drain sets the timer to
the last packet's arrival timestamp and runs the recorder (one Sink write
per `jsonMessages` batch); an empty drain makes no Sink call, reports one
inactivity observation of `now - timer`, and resets the timer to `now`. -/
def tickStep (s : LoopState) (tick : Int × List (Time × Datagram)) :
    Option LoopState :=
  let now := tick.fst
  let pkts := tick.snd
  match pkts.getLast? with
  | none =>
    some { s with obs := s.obs ++ [now - s.timer], timer := now }
  | some lastp =>
    match processIncomingPackets s.game pkts with
    | some fs =>
      some { timer := lastp.fst.stamp, game := fs.game,
             writes := s.writes ++ fs.msgs.entries.map (·.snd), obs := s.obs }
    | none => none

/-- The flush-loop iterations, as a sequence of (wake time, drained batch). -/
def runTicks (s : LoopState) : List (Int × List (Time × Datagram)) → Option LoopState
  | [] => some s
  | tick :: rest =>
    match tickStep s tick with
    | some s1 => runTicks s1 rest
    | none => none

/-! ## Basic lemmas about the helpers -/

namespace Game

theorem isInitializedUpd_snd_drivers (g : Game) :
    (g.isInitializedUpd).snd.drivers = g.drivers := by
  by_cases h : g.init <;> simp [isInitializedUpd, h]

theorem isInitializedUpd_snd_sessionID (g : Game) :
    (g.isInitializedUpd).snd.sessionID = g.sessionID := by
  by_cases h : g.init <;> simp [isInitializedUpd, h]

theorem isInitializedUpd_snd_sessionIDBrut (g : Game) :
    (g.isInitializedUpd).snd.sessionIDBrut = g.sessionIDBrut := by
  by_cases h : g.init <;> simp [isInitializedUpd, h]

theorem isInitializedUpd_snd_init (g : Game) :
    (g.isInitializedUpd).snd.init = (g.isInitializedUpd).fst := by
  by_cases h : g.init <;> simp [isInitializedUpd, h]

theorem isInitializedUpd_of_init (g : Game) (h : g.init = true) :
    g.isInitializedUpd = (true, g) := by
  simp [isInitializedUpd, h]

theorem isInitializedUpd_fst_true_iff (g : Game) :
    (g.isInitializedUpd).fst = true ↔
      g.init = true ∨ (0 < g.drivers.length ∧ g.sessionID.isSome = true) := by
  by_cases h : g.init <;> simp [isInitializedUpd, h]

end Game

theorem mapOptM_length {α β : Type} (f : α → Option β) :
    ∀ (xs : List α) (ys : List β), mapOptM f xs = some ys → ys.length = xs.length := by
  intro xs
  induction xs with
  | nil => intro ys h; simp [mapOptM] at h; simp [← h]
  | cons x xs ih =>
    intro ys h
    simp only [mapOptM] at h
    cases hx : f x with
    | none => rw [hx] at h; simp at h
    | some y =>
      rw [hx] at h
      cases hxs : mapOptM f xs with
      | none => rw [hxs] at h; simp at h
      | some ys0 =>
        rw [hxs] at h
        simp at h
        subst h
        simp [ih ys0 hxs]

theorem mapOptM_isSome {α β : Type} (f : α → Option β) :
    ∀ (xs : List α), (∀ x ∈ xs, (f x).isSome = true) →
      ∃ ys, mapOptM f xs = some ys := by
  intro xs
  induction xs with
  | nil => intro _; exact ⟨[], rfl⟩
  | cons x xs ih =>
    intro h
    obtain ⟨y, hy⟩ := Option.isSome_iff_exists.mp (h x (List.mem_cons_self x xs))
    obtain ⟨ys, hys⟩ := ih (fun a ha => h a (List.mem_cons_of_mem x ha))
    exact ⟨y :: ys, by simp [mapOptM, hy, hys]⟩

theorem mapOptM_get? {α β : Type} (f : α → Option β) :
    ∀ (xs : List α) (ys : List β), mapOptM f xs = some ys →
      ∀ (i : Nat) (y : β), ys[i]? = some y →
        ∃ x, xs[i]? = some x ∧ f x = some y := by
  intro xs
  induction xs with
  | nil =>
    intro ys h i y hy
    simp [mapOptM] at h
    subst h
    simp at hy
  | cons x xs ih =>
    intro ys h i y hy
    simp only [mapOptM] at h
    cases hx : f x with
    | none => rw [hx] at h; simp at h
    | some y0 =>
      rw [hx] at h
      cases hxs : mapOptM f xs with
      | none => rw [hxs] at h; simp at h
      | some ys0 =>
        rw [hxs] at h
        simp at h
        subst h
        cases i with
        | zero =>
          simp at hy
          subst hy
          exact ⟨x, by simp, hx⟩
        | succ i =>
          simp at hy
          obtain ⟨x0, hx0, hfx0⟩ := ih ys0 hxs i y hy
          exact ⟨x0, by simpa using hx0, hfx0⟩

theorem sliceK_of_le {α : Type} (l : List α) (k : Nat) (h : k ≤ l.length) :
    sliceK l k = some (l.take k) := by
  simp [sliceK, h]

theorem sliceK_eq_some {α : Type} (l : List α) (k : Nat) (s : List α)
    (h : sliceK l k = some s) : s = l.take k := by
  unfold sliceK at h
  split at h
  · exact (Option.some.inj h).symm
  · exact absurd h (by simp)

theorem getElem?_take_some {α : Type} :
    ∀ (n i : Nat) (l : List α) (x : α), (l.take n)[i]? = some x → l[i]? = some x := by
  intro n
  induction n with
  | zero =>
    intro i l x h
    simp at h
  | succ n ih =>
    intro i l x h
    cases l with
    | nil => simp at h
    | cons a l =>
      cases i with
      | zero => simpa using h
      | succ i =>
        simp only [List.take_succ_cons, List.getElem?_cons_succ] at h ⊢
        exact ih i l x h

theorem zip_getElem? {α β : Type} :
    ∀ (l1 : List α) (l2 : List β) (i : Nat) (pr : α × β),
      (l1.zip l2)[i]? = some pr → l1[i]? = some pr.fst ∧ l2[i]? = some pr.snd := by
  intro l1
  induction l1 with
  | nil =>
    intro l2 i pr h
    simp [List.zip] at h
  | cons a l1 ih =>
    intro l2 i pr h
    cases l2 with
    | nil => simp [List.zip] at h
    | cons b l2 =>
      cases i with
      | zero =>
        rw [List.zip_cons_cons] at h
        simp only [List.getElem?_cons_zero, Option.some.injEq] at h
        simp [← h]
      | succ i =>
        rw [List.zip_cons_cons] at h
        simp only [List.getElem?_cons_succ] at h ⊢
        exact ih l2 i pr h

theorem wheel4_of_len (l : List Value) (h : l.length = 4) :
    ∃ a b c d, l = [a, b, c, d] ∧ wheel4 l = some (a, b, c, d) := by
  cases l with
  | nil => simp at h
  | cons a l =>
    cases l with
    | nil => simp at h
    | cons b l =>
      cases l with
      | nil => simp at h
      | cons c l =>
        cases l with
        | nil => simp at h
        | cons d l =>
          cases l with
          | nil => exact ⟨a, b, c, d, rfl, rfl⟩
          | cons e l => simp at h

theorem wheel4_components (l : List Value) (a b c d : Value)
    (h : wheel4 l = some (a, b, c, d)) :
    l.get? 0 = some a ∧ l.get? 1 = some b ∧ l.get? 2 = some c ∧ l.get? 3 = some d := by
  unfold wheel4 at h
  cases h0 : l.get? 0 <;> rw [h0] at h <;>
    cases h1 : l.get? 1 <;> rw [h1] at h <;>
      cases h2 : l.get? 2 <;> rw [h2] at h <;>
        cases h3 : l.get? 3 <;> rw [h3] at h <;> simp_all

/-! ## Structural lemmas about the tracker methods -/

namespace Game

theorem processMotion_game (g : Game) (p : PacketMotionData) (t : Time)
    (recs : List Record) (g1 : Game) (h : g.processMotion p t = some (recs, g1)) :
    g1 = (g.isInitializedUpd).snd := by
  simp only [processMotion] at h
  split at h
  · simp only [Option.some.injEq, Prod.mk.injEq] at h
    exact h.2.symm
  · split at h
    · simp only [Option.some.injEq, Prod.mk.injEq] at h
      exact h.2.symm
    · exact absurd h (by simp)

theorem processCarSetup_game (g : Game) (p : PacketCarSetupData) (t : Time)
    (recs : List Record) (g1 : Game) (h : g.processCarSetup p t = some (recs, g1)) :
    g1 = (g.isInitializedUpd).snd := by
  simp only [processCarSetup] at h
  split at h
  · simp only [Option.some.injEq, Prod.mk.injEq] at h
    exact h.2.symm
  · split at h
    · simp only [Option.some.injEq, Prod.mk.injEq] at h
      exact h.2.symm
    · exact absurd h (by simp)

theorem processCarTelemetry_game (g : Game) (p : PacketCarTelemetryData) (t : Time)
    (recs : List Record) (g1 : Game) (h : g.processCarTelemetry p t = some (recs, g1)) :
    g1 = (g.isInitializedUpd).snd := by
  simp only [processCarTelemetry] at h
  split at h
  · simp only [Option.some.injEq, Prod.mk.injEq] at h
    exact h.2.symm
  · split at h
    · split at h
      · simp only [Option.some.injEq, Prod.mk.injEq] at h
        exact h.2.symm
      · exact absurd h (by simp)
    · exact absurd h (by simp)

theorem processCarStatus_game (g : Game) (p : PacketCarStatusData) (t : Time)
    (recs : List Record) (g1 : Game) (h : g.processCarStatus p t = some (recs, g1)) :
    g1 = (g.isInitializedUpd).snd := by
  simp only [processCarStatus] at h
  split at h
  · simp only [Option.some.injEq, Prod.mk.injEq] at h
    exact h.2.symm
  · split at h
    · split at h
      · simp only [Option.some.injEq, Prod.mk.injEq] at h
        exact h.2.symm
      · exact absurd h (by simp)
    · exact absurd h (by simp)

theorem processLap_game (g : Game) (p : PacketLapData) (t : Time)
    (recs : List Record) (g1 : Game) (h : g.processLap p t = some (recs, g1)) :
    g1 = (g.isInitializedUpd).snd := by
  simp only [processLap] at h
  split at h
  · simp only [Option.some.injEq, Prod.mk.injEq] at h
    exact h.2.symm
  · split at h
    · simp only [Option.some.injEq, Prod.mk.injEq] at h
      exact h.2.symm
    · exact absurd h (by simp)

theorem processEvent_game (g : Game) (p : PacketEventData) (t : Time)
    (recs : List Record) (g1 : Game) (h : g.processEvent p t = some (recs, g1)) :
    g1 = (g.isInitializedUpd).snd := by
  simp only [processEvent] at h
  split at h
  · simp only [Option.some.injEq, Prod.mk.injEq] at h
    exact h.2.symm
  · split at h
    · simp only [Option.some.injEq, Prod.mk.injEq] at h
      exact h.2.symm
    · exact absurd h (by simp)

theorem processParticipant_game (g : Game) (p : PacketParticipantsData) (t : Time)
    (recs : List Record) (g1 : Game) (h : g.processParticipant p t = some (recs, g1)) :
    ∃ parts, sliceK p.participants p.numActiveCars = some parts ∧
      g1 = { (g.isInitializedUpd).snd with drivers := parts.map (·.name) } := by
  simp only [processParticipant] at h
  split at h
  · split at h
    · simp only [Option.some.injEq, Prod.mk.injEq] at h
      exact ⟨_, by assumption, h.2.symm⟩
    · exact absurd h (by simp)
  · split at h
    · simp only [Option.some.injEq, Prod.mk.injEq] at h
      exact ⟨_, by assumption, h.2.symm⟩
    · exact absurd h (by simp)

theorem processSession_game (g : Game) (p : PacketSessionData) (t : Time) :
    (g.processSession p t).snd =
      ({ (g.mySessionId p t).snd with
          sessionID := (g.mySessionId p t).fst }).isInitializedUpd.snd := by
  simp only [processSession]
  split <;> rfl

theorem mySessionId_snd_drivers (g : Game) (p : PacketSessionData) (t : Time) :
    (g.mySessionId p t).snd.drivers = g.drivers := by
  simp only [mySessionId]
  split <;> rfl

theorem mySessionId_snd_init (g : Game) (p : PacketSessionData) (t : Time) :
    (g.mySessionId p t).snd.init = g.init := by
  simp only [mySessionId]
  split <;> rfl

/-- Before the gate is open, every conversion method except
PARTICIPANTS/SESSION returns no records and only updates the gate flag. -/
theorem processMotion_notReady (g : Game) (p : PacketMotionData) (t : Time)
    (h : (g.isInitializedUpd).fst = false) :
    g.processMotion p t = some ([], (g.isInitializedUpd).snd) := by
  simp [processMotion, h]

theorem processCarSetup_notReady (g : Game) (p : PacketCarSetupData) (t : Time)
    (h : (g.isInitializedUpd).fst = false) :
    g.processCarSetup p t = some ([], (g.isInitializedUpd).snd) := by
  simp [processCarSetup, h]

theorem processCarTelemetry_notReady (g : Game) (p : PacketCarTelemetryData) (t : Time)
    (h : (g.isInitializedUpd).fst = false) :
    g.processCarTelemetry p t = some ([], (g.isInitializedUpd).snd) := by
  simp [processCarTelemetry, h]

theorem processCarStatus_notReady (g : Game) (p : PacketCarStatusData) (t : Time)
    (h : (g.isInitializedUpd).fst = false) :
    g.processCarStatus p t = some ([], (g.isInitializedUpd).snd) := by
  simp [processCarStatus, h]

theorem processLap_notReady (g : Game) (p : PacketLapData) (t : Time)
    (h : (g.isInitializedUpd).fst = false) :
    g.processLap p t = some ([], (g.isInitializedUpd).snd) := by
  simp [processLap, h]

theorem processEvent_notReady (g : Game) (p : PacketEventData) (t : Time)
    (h : (g.isInitializedUpd).fst = false) :
    g.processEvent p t = some ([], (g.isInitializedUpd).snd) := by
  simp [processEvent, h]

end Game

/-! ## The readiness invariant (claims C2, C3) -/

/-- A PARTICIPANTS packet that makes the roster non-empty. -/
def isPartWithCars : GamePacket → Bool
  | .participants p => p.numActiveCars != 0
  | _ => false

def isSess : GamePacket → Bool
  | .session _ => true
  | _ => false

def seenPart (ps : List (GamePacket × Time)) : Bool :=
  ps.any (fun x => isPartWithCars x.fst)

def seenSess (ps : List (GamePacket × Time)) : Bool :=
  ps.any (fun x => isSess x.fst)

/-- Invariant tying the tracker state to what has been seen: while no
roster-building PARTICIPANTS packet (resp. no SESSION packet) has been seen,
the roster is empty (resp. no session identity exists), and the gate flag
implies both have been seen. -/
def NotReadyInv (sp ss : Bool) (g : Game) : Prop :=
  (sp = false → g.drivers = []) ∧ (ss = false → g.sessionID = none) ∧
    (g.init = true → sp = true ∧ ss = true)

theorem notReadyInv_fst_imp (sp ss : Bool) (g : Game) (hinv : NotReadyInv sp ss g)
    (h : (g.isInitializedUpd).fst = true) : sp = true ∧ ss = true := by
  rcases (Game.isInitializedUpd_fst_true_iff g).mp h with hi | ⟨hl, hs⟩
  · exact hinv.2.2 hi
  · refine ⟨?_, ?_⟩
    · cases hsp : sp
      · have hd := hinv.1 hsp
        rw [hd] at hl
        simp at hl
      · rfl
    · cases hss : ss
      · have hs2 := hinv.2.1 hss
        rw [hs2] at hs
        simp at hs
      · rfl

theorem notReadyInv_upd (sp ss : Bool) (g : Game) (hinv : NotReadyInv sp ss g) :
    NotReadyInv sp ss (g.isInitializedUpd).snd := by
  refine ⟨?_, ?_, ?_⟩
  · intro h
    rw [Game.isInitializedUpd_snd_drivers]
    exact hinv.1 h
  · intro h
    rw [Game.isInitializedUpd_snd_sessionID]
    exact hinv.2.1 h
  · intro h
    rw [Game.isInitializedUpd_snd_init] at h
    exact notReadyInv_fst_imp sp ss g hinv h

theorem stepPacket_inv (g : Game) (p : GamePacket) (t : Time) (recs : List Record)
    (g1 : Game) (h : g.stepPacket p t = some (recs, g1)) (sp ss : Bool)
    (hinv : NotReadyInv sp ss g) :
    NotReadyInv (sp || isPartWithCars p) (ss || isSess p) g1 := by
  cases p with
  | motion pm =>
    have hg := Game.processMotion_game g pm t recs g1 h
    subst hg
    simpa [isPartWithCars, isSess] using notReadyInv_upd sp ss g hinv
  | lap pl =>
    have hg := Game.processLap_game g pl t recs g1 h
    subst hg
    simpa [isPartWithCars, isSess] using notReadyInv_upd sp ss g hinv
  | event pe =>
    have hg := Game.processEvent_game g pe t recs g1 h
    subst hg
    simpa [isPartWithCars, isSess] using notReadyInv_upd sp ss g hinv
  | carSetups pc =>
    have hg := Game.processCarSetup_game g pc t recs g1 h
    subst hg
    simpa [isPartWithCars, isSess] using notReadyInv_upd sp ss g hinv
  | carTelemetry ptl =>
    have hg := Game.processCarTelemetry_game g ptl t recs g1 h
    subst hg
    simpa [isPartWithCars, isSess] using notReadyInv_upd sp ss g hinv
  | carStatus pc =>
    have hg := Game.processCarStatus_game g pc t recs g1 h
    subst hg
    simpa [isPartWithCars, isSess] using notReadyInv_upd sp ss g hinv
  | participants pp =>
    obtain ⟨parts, hslice, hg⟩ := Game.processParticipant_game g pp t recs g1 h
    subst hg
    have hbase := notReadyInv_upd sp ss g hinv
    simp only [isPartWithCars, isSess, Bool.or_false]
    refine ⟨?_, ?_, ?_⟩
    · intro hz
      rcases Bool.or_eq_false_iff.mp hz with ⟨_, hk⟩
      have hk0 : pp.numActiveCars = 0 := by
        simpa using hk
      rw [hk0] at hslice
      simp [sliceK] at hslice
      simp [← hslice]
    · intro hz
      have := hbase.2.1 hz
      simpa using this
    · intro hz
      have hi : (g.isInitializedUpd).snd.init = true := hz
      rw [Game.isInitializedUpd_snd_init] at hi
      have := notReadyInv_fst_imp sp ss g hinv hi
      simp [this.1, this.2]
  | session psess =>
    have hg : g1 = (g.processSession psess t).snd := by
      simp only [Game.stepPacket] at h
      simp only [Option.some.injEq] at h
      rw [h]
    subst hg
    rw [Game.processSession_game]
    simp only [isPartWithCars, isSess, Bool.or_false, Bool.or_true]
    refine ⟨?_, ?_, ?_⟩
    · intro hz
      rw [Game.isInitializedUpd_snd_drivers]
      show ({ (g.mySessionId psess t).snd with
        sessionID := (g.mySessionId psess t).fst } : Game).drivers = []
      have : ({ (g.mySessionId psess t).snd with
          sessionID := (g.mySessionId psess t).fst } : Game).drivers =
          (g.mySessionId psess t).snd.drivers := rfl
      rw [this, Game.mySessionId_snd_drivers]
      exact hinv.1 hz
    · intro hz
      cases hz
    · intro hz
      refine ⟨?_, rfl⟩
      rw [Game.isInitializedUpd_snd_init] at hz
      set gB : Game := { (g.mySessionId psess t).snd with
        sessionID := (g.mySessionId psess t).fst } with hgB
      rcases (Game.isInitializedUpd_fst_true_iff gB).mp hz with hi | ⟨hl, _⟩
      · have : gB.init = g.init := by
          rw [hgB]
          show (g.mySessionId psess t).snd.init = g.init
          exact Game.mySessionId_snd_init g psess t
        rw [this] at hi
        exact (hinv.2.2 hi).1
      · have hdg : gB.drivers = g.drivers := by
          rw [hgB]
          show (g.mySessionId psess t).snd.drivers = g.drivers
          exact Game.mySessionId_snd_drivers g psess t
        rw [hdg] at hl
        cases hsp : sp
        · have hd := hinv.1 hsp
          rw [hd] at hl
          simp at hl
        · rfl

theorem runGame_inv :
    ∀ (ps : List (GamePacket × Time)) (g g' : Game), runGame g ps = some g' →
      ∀ sp ss, NotReadyInv sp ss g →
        NotReadyInv (sp || seenPart ps) (ss || seenSess ps) g' := by
  intro ps
  induction ps with
  | nil =>
    intro g g' h sp ss hinv
    simp only [runGame, Option.some.injEq] at h
    subst h
    simpa [seenPart, seenSess] using hinv
  | cons pt rest ih =>
    intro g g' h sp ss hinv
    obtain ⟨p, t⟩ := pt
    simp only [runGame] at h
    cases hstep : g.stepPacket p t with
    | none =>
      rw [hstep] at h
      exact absurd h (by simp)
    | some rg =>
      rw [hstep] at h
      have hinv1 := stepPacket_inv g p t rg.fst rg.snd (by rw [hstep]) sp ss hinv
      have hres := ih rg.snd g' h _ _ hinv1
      simpa [seenPart, seenSess, Bool.or_assoc] using hres

/-- No tracker method ever clears the gate flag. -/
theorem stepPacket_init_mono (g : Game) (p : GamePacket) (t : Time)
    (recs : List Record) (g1 : Game) (h : g.stepPacket p t = some (recs, g1))
    (hg : g.init = true) : g1.init = true := by
  have hup : (g.isInitializedUpd).snd.init = true := by
    rw [Game.isInitializedUpd_of_init g hg]
    exact hg
  cases p with
  | motion pm =>
    rw [Game.processMotion_game g pm t recs g1 h]
    exact hup
  | lap pl =>
    rw [Game.processLap_game g pl t recs g1 h]
    exact hup
  | event pe =>
    rw [Game.processEvent_game g pe t recs g1 h]
    exact hup
  | carSetups pc =>
    rw [Game.processCarSetup_game g pc t recs g1 h]
    exact hup
  | carTelemetry ptl =>
    rw [Game.processCarTelemetry_game g ptl t recs g1 h]
    exact hup
  | carStatus pc =>
    rw [Game.processCarStatus_game g pc t recs g1 h]
    exact hup
  | participants pp =>
    obtain ⟨parts, _, hg1⟩ := Game.processParticipant_game g pp t recs g1 h
    rw [hg1]
    exact hup
  | session psess =>
    have hgq : g1 = (g.processSession psess t).snd := by
      simp only [Game.stepPacket, Option.some.injEq] at h
      rw [h]
    subst hgq
    rw [Game.processSession_game]
    set gB : Game := { (g.mySessionId psess t).snd with
      sessionID := (g.mySessionId psess t).fst } with hgB
    have hBi : gB.init = true := by
      rw [hgB]
      show (g.mySessionId psess t).snd.init = true
      rw [Game.mySessionId_snd_init]
      exact hg
    rw [Game.isInitializedUpd_of_init gB hBi]
    exact hBi

theorem runGame_init_mono :
    ∀ (ps : List (GamePacket × Time)) (g g' : Game), runGame g ps = some g' →
      g.init = true → g'.init = true := by
  intro ps
  induction ps with
  | nil =>
    intro g g' h hg
    simp only [runGame, Option.some.injEq] at h
    rw [← h]
    exact hg
  | cons pt rest ih =>
    intro g g' h hg
    obtain ⟨p, t⟩ := pt
    simp only [runGame] at h
    cases hstep : g.stepPacket p t with
    | none =>
      rw [hstep] at h
      exact absurd h (by simp)
    | some rg =>
      rw [hstep] at h
      exact ih rg.snd g' h
        (stepPacket_init_mono g p t rg.fst rg.snd (by rw [hstep]) hg)

/-! ## Concrete inputs used by witnesses and counterexamples -/

def tC : Time := ⟨0, "2019-01-01T00:00:00Z", "20190101_0000"⟩

def mkHeader (pid uid : Nat) : PacketHeader :=
  { packetFormat := 2019, gameMajorVersion := 1, gameMinorVersion := 5,
    packetVersion := 1, packetId := pid, sessionUID := uid,
    sessionTime := .vNat 0, frameIdentifier := 0, playerCarIndex := 0 }

/-- A tracker state after the gate has opened (roster `["A"]`, session
identity `"S"` derived from raw id 7). -/
def gReady : Game :=
  { drivers := ["A"], sessionID := some "S", sessionIDBrut := some 7, init := true }

def pSetupC : PacketCarSetupData :=
  { header := mkHeader 5 7, carSetups := [⟨⟨[("ballast", .vNat 1)]⟩⟩] }

def dSetupC : Datagram := ⟨843, .carSetups pSetupC⟩

def pStatusC : PacketCarStatusData :=
  { header := mkHeader 7 7,
    carStatusData := [⟨⟨[("fuelInTank", .vNat 9),
      ("tyresWear", .vArr [.vNat 1, .vNat 2, .vNat 3, .vNat 4]),
      ("tyresDamage", .vArr [.vNat 5, .vNat 6, .vNat 7, .vNat 8])]⟩⟩] }

def dStatusC : Datagram := ⟨1143, .carStatus pStatusC⟩

def pSessC : PacketSessionData :=
  { header := mkHeader 1 7,
    marshalZones := [⟨⟨[("zoneStart", .vNat 0), ("zoneFlag", .vNat 0)]⟩⟩,
                     ⟨⟨[("zoneStart", .vNat 1), ("zoneFlag", .vNat 0)]⟩⟩],
    trackId := 0, m_formula := 0,
    fields := ⟨[("header", .vNull), ("weather", .vNat 1), ("trackId", .vNat 0),
                ("marshalZones", .vNull)]⟩ }

/-! ## Claims -/

/-- C1 (code bug). Within one flush cycle the spec expects records to be
appended to the batch of their packet's type, CAR_SETUPS records to land in
the CAR_SETUPS batch, and only non-empty batches to be written.  Evaluating
the embedded `process_incoming_packets` on a Ready tracker and a drained
batch of one valid CAR_SETUPS datagram followed by one valid CAR_STATUS
datagram: both packets decode (no rejection is logged), yet the final
`jsonMessages` holds a single batch, under the CAR_STATUS key 7, containing
only the CAR_STATUS record — the CAR_SETUPS records were stored under key 7
(`jsonMessages[PacketID.CAR_STATUS]`, main.py:168) and then replaced. -/
theorem c1_carsetups_records_miskeyed :
    (processIncomingPackets gReady [(tC, dSetupC), (tC, dStatusC)]).map
      (fun s => (s.msgs.entries.map (fun e => (e.fst, e.snd.map Record.measurement)),
        s.logs.length)) = some ([(7, ["CarStatusData"])], 0) := rfl

/-- C5 (code bug). Once Ready, `processSession` emits one record per
marshal zone plus one aggregate record whose field set drops `marshalZones`
and `header` — but the zone records all alias one tags dict that is mutated
each iteration, so every zone record carries the *final* zone label: on a
SESSION packet with two marshal zones, both zone records are tagged
`MarshalZone1`, not `MarshalZone0`/`MarshalZone1` as the claim states. -/
theorem c5_marshal_zone_label_shared :
    ((gReady.processSession pSessC tC).fst.map
        (fun r => (r.measurement, r.tags.get? "MarshalZoneId")) =
      [("MarshalZones", some (.vStr "MarshalZone1")),
       ("MarshalZones", some (.vStr "MarshalZone1")),
       ("SessionData", none)]) ∧
    ((gReady.processSession pSessC tC).fst.map
        (fun r => (r.fields.get? "marshalZones", r.fields.get? "header"))).getLast?
      = some (none, none) :=
  ⟨rfl, rfl⟩

def pMotE : PacketMotionData :=
  { header := mkHeader 0 7, carMotionData := [],
    localVelocityX := .vNull, localVelocityY := .vNull, localVelocityZ := .vNull,
    angularVelocityX := .vNull, angularVelocityY := .vNull, angularVelocityZ := .vNull,
    angularAccelerationX := .vNull, angularAccelerationY := .vNull,
    angularAccelerationZ := .vNull, frontWheelsAngle := .vNull,
    suspensionPosition := [], suspensionVelocity := [],
    suspensionAcceleration := [], wheelSpeed := [], wheelSlip := [] }

def pLapE : PacketLapData := { header := mkHeader 2 7, lapData := [] }

def pEvtE : PacketEventData :=
  { header := mkHeader 3 7,
    fields := ⟨[("header", .vNull), ("eventStringCode", .vBytes "SSTA")]⟩ }

def telSlotC : CarTelemetryData :=
  { fields := ⟨[("speed", .vNat 100)]⟩,
    brakesTemperature := [.vNat 11, .vNat 12, .vNat 13, .vNat 14],
    tyresSurfaceTemperature := [.vNat 21, .vNat 22, .vNat 23, .vNat 24],
    tyresInnerTemperature := [.vNat 31, .vNat 32, .vNat 33, .vNat 34],
    tyresPressure := [.vNat 41, .vNat 42, .vNat 43, .vNat 44],
    surfaceType := [.vNat 51, .vNat 52, .vNat 53, .vNat 54] }

def pTelC : PacketCarTelemetryData :=
  { header := mkHeader 6 7, carTelemetryData := [telSlotC] }

/-- C2 (confirmed). Starting from a fresh tracker, for every packet
sequence in which a roster-building PARTICIPANTS packet and a SESSION packet
have not both occurred, all six other processing methods return an empty
record list (on any further packet of their type). -/
theorem c2_no_records_before_ready (ps : List (GamePacket × Time)) (g' : Game)
    (hrun : runGame Game.initial ps = some g')
    (hseen : ¬(seenPart ps = true ∧ seenSess ps = true)) :
    ∀ (t : Time) (pm : PacketMotionData) (pl : PacketLapData)
      (pe : PacketEventData) (pc : PacketCarSetupData)
      (pst : PacketCarStatusData) (ptl : PacketCarTelemetryData),
      (g'.processMotion pm t).map Prod.fst = some [] ∧
      (g'.processLap pl t).map Prod.fst = some [] ∧
      (g'.processEvent pe t).map Prod.fst = some [] ∧
      (g'.processCarSetup pc t).map Prod.fst = some [] ∧
      (g'.processCarStatus pst t).map Prod.fst = some [] ∧
      (g'.processCarTelemetry ptl t).map Prod.fst = some [] := by
  have hinv0 : NotReadyInv false false Game.initial := by
    refine ⟨fun _ => rfl, fun _ => rfl, fun h => ?_⟩
    simp [Game.initial] at h
  have hinv := runGame_inv ps Game.initial g' hrun false false hinv0
  simp only [Bool.false_or] at hinv
  have hfst : (g'.isInitializedUpd).fst = false := by
    cases hf : (g'.isInitializedUpd).fst
    · rfl
    · exact absurd (notReadyInv_fst_imp _ _ _ hinv hf) hseen
  intro t pm pl pe pc pst ptl
  refine ⟨?_, ?_, ?_, ?_, ?_, ?_⟩
  · rw [Game.processMotion_notReady g' pm t hfst]
    rfl
  · rw [Game.processLap_notReady g' pl t hfst]
    rfl
  · rw [Game.processEvent_notReady g' pe t hfst]
    rfl
  · rw [Game.processCarSetup_notReady g' pc t hfst]
    rfl
  · rw [Game.processCarStatus_notReady g' pst t hfst]
    rfl
  · rw [Game.processCarTelemetry_notReady g' ptl t hfst]
    rfl

/-- Witness for C2: the empty sequence has seen neither packet kind, and all
six methods of the fresh tracker return zero records on concrete packets. -/
theorem c2_witness :
    (Game.initial.processMotion pMotE tC).map Prod.fst = some [] ∧
    (Game.initial.processLap pLapE tC).map Prod.fst = some [] ∧
    (Game.initial.processEvent pEvtE tC).map Prod.fst = some [] ∧
    (Game.initial.processCarSetup pSetupC tC).map Prod.fst = some [] ∧
    (Game.initial.processCarStatus pStatusC tC).map Prod.fst = some [] ∧
    (Game.initial.processCarTelemetry pTelC tC).map Prod.fst = some [] :=
  c2_no_records_before_ready [] Game.initial rfl (by simp [seenPart, seenSess])
    tC pMotE pLapE pEvtE pSetupC pStatusC pTelC

/-- C3 (confirmed). The readiness gate is monotone: once `IsInitialized`
has returned `true`, it returns `true` after any further packet sequence —
including PARTICIPANTS packets that rebuild the roster empty and SESSION
packets that replace the session identity. -/
theorem c3_readiness_monotone (g : Game) (h : (g.isInitializedUpd).fst = true)
    (ps : List (GamePacket × Time)) (g' : Game)
    (hrun : runGame (g.isInitializedUpd).snd ps = some g') :
    (g'.isInitializedUpd).fst = true := by
  have h0 : (g.isInitializedUpd).snd.init = true := by
    rw [Game.isInitializedUpd_snd_init]
    exact h
  have h1 : g'.init = true := runGame_init_mono ps _ g' hrun h0
  rw [Game.isInitializedUpd_of_init g' h1]

/-- Concrete roster-emptying PARTICIPANTS packet (zero active cars). -/
def pPart0 : PacketParticipantsData :=
  { header := mkHeader 4 7, numActiveCars := 0, participants := [] }

/-- Witness for C3: after a PARTICIPANTS packet that rebuilds the roster to
be empty, the gate still reports `true`. -/
theorem c3_witness :
    (({ gReady with drivers := [] } : Game).isInitializedUpd).fst = true :=
  c3_readiness_monotone gReady rfl [(.participants pPart0, tC)] _ rfl

/-- C4 (confirmed). Once Ready, a PARTICIPANTS packet with
`numActiveCars = k` (within the payload array) yields exactly `k` per-driver
records built from participant slots `0..k-1` in order, and leaves the
roster as the `k` slot names in order. -/
theorem c4_participants_records_roster (g : Game) (p : PacketParticipantsData)
    (t : Time) (hReady : (g.isInitializedUpd).fst = true)
    (hk : p.numActiveCars ≤ p.participants.length) :
    g.processParticipant p t =
      some ((p.participants.take p.numActiveCars).map
          (Game.participantRecord
            (Game.participantFinalTags g.sessionID p.header
              ((p.participants.take p.numActiveCars).map (·.name))) t),
        { (g.isInitializedUpd).snd with
          drivers := (p.participants.take p.numActiveCars).map (·.name) }) ∧
    ((p.participants.take p.numActiveCars).map (·.name)).length = p.numActiveCars := by
  constructor
  · simp only [Game.processParticipant, hReady, Bool.not_true, Bool.false_eq_true,
      if_false, sliceK_of_le p.participants p.numActiveCars hk,
      Game.isInitializedUpd_snd_sessionID]
  · simp [List.length_take, Nat.min_eq_left hk]

def pPart2 : PacketParticipantsData :=
  { header := mkHeader 4 7, numActiveCars := 2,
    participants := [⟨"A", ⟨[("name", .vBytes "A"), ("nationality", .vNat 1)]⟩⟩,
                     ⟨"B", ⟨[("name", .vBytes "B"), ("nationality", .vNat 2)]⟩⟩] }

/-- Witness for C4 on a Ready tracker and a two-driver PARTICIPANTS packet. -/
theorem c4_witness :
    gReady.processParticipant pPart2 tC =
      some ((pPart2.participants.take pPart2.numActiveCars).map
          (Game.participantRecord
            (Game.participantFinalTags gReady.sessionID pPart2.header
              ((pPart2.participants.take pPart2.numActiveCars).map (·.name))) tC),
        { (gReady.isInitializedUpd).snd with
          drivers := (pPart2.participants.take pPart2.numActiveCars).map (·.name) }) ∧
    ((pPart2.participants.take pPart2.numActiveCars).map (·.name)).length
      = pPart2.numActiveCars :=
  c4_participants_records_roster gReady pPart2 tC rfl (by decide)

theorem mySessionId_snd_brut (g : Game) (p : PacketSessionData) (t : Time) :
    (g.mySessionId p t).snd.sessionIDBrut = some p.header.sessionUID := by
  simp only [Game.mySessionId]
  split
  · rfl
  · rename_i h
    exact not_not.mp h

theorem mySessionId_fst_eq (g : Game) (p : PacketSessionData) (t : Time) :
    (g.mySessionId p t).fst = (g.mySessionId p t).snd.sessionID := by
  simp only [Game.mySessionId]
  split <;> rfl

theorem mySessionId_same (g : Game) (p : PacketSessionData) (t : Time)
    (h : g.sessionIDBrut = some p.header.sessionUID) :
    g.mySessionId p t = (g.sessionID, g) := by
  simp [Game.mySessionId, h]

theorem mySessionId_new (g : Game) (p : PacketSessionData) (t : Time)
    (h : g.sessionIDBrut ≠ some p.header.sessionUID) :
    g.mySessionId p t = (some (sessionString t p.trackId p.m_formula),
      { g with sessionIDBrut := some p.header.sessionUID,
               sessionID := some (sessionString t p.trackId p.m_formula) }) := by
  simp [Game.mySessionId, h]

/-- C6 (confirmed). After any SESSION packet, a second SESSION packet
with the same raw 64-bit session id leaves the identity (and the whole
tracker state) unchanged, while one with a different raw id recomputes the
identity as a pure function of the current capture time, track and race
format (so it cannot regress to a stale cached value). -/
theorem c6_session_identity_recompute (g : Game) (p1 p2 : PacketSessionData)
    (t1 t2 : Time) :
    (p2.header.sessionUID = p1.header.sessionUID →
      (g.mySessionId p1 t1).snd.mySessionId p2 t2 = g.mySessionId p1 t1) ∧
    (p2.header.sessionUID ≠ p1.header.sessionUID →
      ((g.mySessionId p1 t1).snd.mySessionId p2 t2).fst =
          some (sessionString t2 p2.trackId p2.m_formula) ∧
        ((g.mySessionId p1 t1).snd.mySessionId p2 t2).snd.sessionIDBrut =
          some p2.header.sessionUID) := by
  refine ⟨fun heq => ?_, fun hne => ?_⟩
  · rw [mySessionId_same _ p2 t2 (by rw [mySessionId_snd_brut, heq])]
    rw [← mySessionId_fst_eq]
  · rw [mySessionId_new _ p2 t2 (by
      rw [mySessionId_snd_brut]
      exact fun hcon => hne (Option.some.inj hcon).symm)]
    exact ⟨rfl, rfl⟩

def pSessA : PacketSessionData :=
  { header := mkHeader 1 5, marshalZones := [], trackId := 0, m_formula := 0,
    fields := ⟨[]⟩ }

def pSessB : PacketSessionData :=
  { header := mkHeader 1 9, marshalZones := [], trackId := 2, m_formula := 1,
    fields := ⟨[]⟩ }

/-- Witness for C6: same raw id 5 twice leaves the identity unchanged;
a later raw id 9 recomputes it from current time/track/format. -/
theorem c6_witness :
    ((Game.initial.mySessionId pSessA tC).snd.mySessionId pSessA tC
        = Game.initial.mySessionId pSessA tC) ∧
    (((Game.initial.mySessionId pSessA tC).snd.mySessionId pSessB tC).fst
        = some (sessionString tC pSessB.trackId pSessB.m_formula)) :=
  ⟨(c6_session_identity_recompute Game.initial pSessA pSessA tC tC).1 rfl,
   ((c6_session_identity_recompute Game.initial pSessA pSessB tC tC).2
      (by decide)).1⟩

/-- What one telemetry slot's field expansion guarantees: every 4-element
array is flattened to `_RL/_RR/_FL/_FR` fields holding indices 0..3, and
the five array-valued source fields are absent from the result. -/
theorem telemetrySlotFields_spec (c : CarTelemetryData) (m : FieldMap)
    (h : Game.telemetrySlotFields c = some m) :
    (m.get? "brakesTemperature_RL" = c.brakesTemperature.get? 0 ∧
     m.get? "brakesTemperature_RR" = c.brakesTemperature.get? 1 ∧
     m.get? "brakesTemperature_FL" = c.brakesTemperature.get? 2 ∧
     m.get? "brakesTemperature_FR" = c.brakesTemperature.get? 3) ∧
    (m.get? "tyresSurfaceTemperature_RL" = c.tyresSurfaceTemperature.get? 0 ∧
     m.get? "tyresSurfaceTemperature_RR" = c.tyresSurfaceTemperature.get? 1 ∧
     m.get? "tyresSurfaceTemperature_FL" = c.tyresSurfaceTemperature.get? 2 ∧
     m.get? "tyresSurfaceTemperature_FR" = c.tyresSurfaceTemperature.get? 3) ∧
    (m.get? "tyresInnerTemperature_RL" = c.tyresInnerTemperature.get? 0 ∧
     m.get? "tyresInnerTemperature_RR" = c.tyresInnerTemperature.get? 1 ∧
     m.get? "tyresInnerTemperature_FL" = c.tyresInnerTemperature.get? 2 ∧
     m.get? "tyresInnerTemperature_FR" = c.tyresInnerTemperature.get? 3) ∧
    (m.get? "tyresPressure_RL" = c.tyresPressure.get? 0 ∧
     m.get? "tyresPressure_RR" = c.tyresPressure.get? 1 ∧
     m.get? "tyresPressure_FL" = c.tyresPressure.get? 2 ∧
     m.get? "tyresPressure_FR" = c.tyresPressure.get? 3) ∧
    (m.get? "surfaceType_RL" = c.surfaceType.get? 0 ∧
     m.get? "surfaceType_RR" = c.surfaceType.get? 1 ∧
     m.get? "surfaceType_FL" = c.surfaceType.get? 2 ∧
     m.get? "surfaceType_FR" = c.surfaceType.get? 3) ∧
    (m.get? "brakesTemperature" = none ∧
     m.get? "tyresSurfaceTemperature" = none ∧
     m.get? "tyresInnerTemperature" = none ∧
     m.get? "tyresPressure" = none ∧
     m.get? "surfaceType" = none) := by
  unfold Game.telemetrySlotFields at h
  cases hbt : wheel4 c.brakesTemperature with
  | none => rw [hbt] at h; simp at h
  | some bt =>
  cases hst : wheel4 c.tyresSurfaceTemperature with
  | none => rw [hbt, hst] at h; simp at h
  | some st =>
  cases hit : wheel4 c.tyresInnerTemperature with
  | none => rw [hbt, hst, hit] at h; simp at h
  | some it =>
  cases htp : wheel4 c.tyresPressure with
  | none => rw [hbt, hst, hit, htp] at h; simp at h
  | some tp =>
  cases hsf : wheel4 c.surfaceType with
  | none => rw [hbt, hst, hit, htp, hsf] at h; simp at h
  | some sf =>
  rw [hbt, hst, hit, htp, hsf] at h
  obtain ⟨bt0, bt1, bt2, bt3⟩ := bt
  obtain ⟨st0, st1, st2, st3⟩ := st
  obtain ⟨it0, it1, it2, it3⟩ := it
  obtain ⟨tp0, tp1, tp2, tp3⟩ := tp
  obtain ⟨sf0, sf1, sf2, sf3⟩ := sf
  obtain ⟨hb0, hb1, hb2, hb3⟩ := wheel4_components _ _ _ _ _ hbt
  obtain ⟨hs0, hs1, hs2, hs3⟩ := wheel4_components _ _ _ _ _ hst
  obtain ⟨hi0, hi1, hi2, hi3⟩ := wheel4_components _ _ _ _ _ hit
  obtain ⟨hp0, hp1, hp2, hp3⟩ := wheel4_components _ _ _ _ _ htp
  obtain ⟨hf0, hf1, hf2, hf3⟩ := wheel4_components _ _ _ _ _ hsf
  obtain rfl := Option.some.inj h
  simp only [List.get?_eq_getElem?] at hb0 hb1 hb2 hb3 hs0 hs1 hs2 hs3 hi0 hi1 hi2 hi3 hp0 hp1 hp2 hp3 hf0 hf1 hf2 hf3
  simp [set4, FieldMap.get?_erase, FieldMap.get?_set,
    hb0, hb1, hb2, hb3, hs0, hs1, hs2, hs3, hi0, hi1, hi2, hi3,
    hp0, hp1, hp2, hp3, hf0, hf1, hf2, hf3]

/-- C7 (confirmed). Once Ready, every per-driver record emitted by
`processCarTelemetry` for car slot `i` maps each 4-element array of slot
`i`'s payload (`brakesTemperature`, `tyresSurfaceTemperature`,
`tyresInnerTemperature`, `tyresPressure`, `surfaceType`) to the four scalar
fields `_RL/_RR/_FL/_FR` holding indices 0..3, and its field set contains
none of the five array-valued originals. -/
theorem c7_telemetry_expansion (g : Game) (p : PacketCarTelemetryData) (t : Time)
    (recs : List Record) (g1 : Game) (i : Nat) (r : Record) (c : CarTelemetryData)
    (hReady : (g.isInitializedUpd).fst = true)
    (hrun : g.processCarTelemetry p t = some (recs, g1))
    (hr : recs[i]? = some r) (hc : p.carTelemetryData[i]? = some c) :
    (r.fields.get? "brakesTemperature_RL" = c.brakesTemperature.get? 0 ∧
     r.fields.get? "brakesTemperature_RR" = c.brakesTemperature.get? 1 ∧
     r.fields.get? "brakesTemperature_FL" = c.brakesTemperature.get? 2 ∧
     r.fields.get? "brakesTemperature_FR" = c.brakesTemperature.get? 3) ∧
    (r.fields.get? "tyresSurfaceTemperature_RL" = c.tyresSurfaceTemperature.get? 0 ∧
     r.fields.get? "tyresSurfaceTemperature_RR" = c.tyresSurfaceTemperature.get? 1 ∧
     r.fields.get? "tyresSurfaceTemperature_FL" = c.tyresSurfaceTemperature.get? 2 ∧
     r.fields.get? "tyresSurfaceTemperature_FR" = c.tyresSurfaceTemperature.get? 3) ∧
    (r.fields.get? "tyresInnerTemperature_RL" = c.tyresInnerTemperature.get? 0 ∧
     r.fields.get? "tyresInnerTemperature_RR" = c.tyresInnerTemperature.get? 1 ∧
     r.fields.get? "tyresInnerTemperature_FL" = c.tyresInnerTemperature.get? 2 ∧
     r.fields.get? "tyresInnerTemperature_FR" = c.tyresInnerTemperature.get? 3) ∧
    (r.fields.get? "tyresPressure_RL" = c.tyresPressure.get? 0 ∧
     r.fields.get? "tyresPressure_RR" = c.tyresPressure.get? 1 ∧
     r.fields.get? "tyresPressure_FL" = c.tyresPressure.get? 2 ∧
     r.fields.get? "tyresPressure_FR" = c.tyresPressure.get? 3) ∧
    (r.fields.get? "surfaceType_RL" = c.surfaceType.get? 0 ∧
     r.fields.get? "surfaceType_RR" = c.surfaceType.get? 1 ∧
     r.fields.get? "surfaceType_FL" = c.surfaceType.get? 2 ∧
     r.fields.get? "surfaceType_FR" = c.surfaceType.get? 3) ∧
    (r.fields.get? "brakesTemperature" = none ∧
     r.fields.get? "tyresSurfaceTemperature" = none ∧
     r.fields.get? "tyresInnerTemperature" = none ∧
     r.fields.get? "tyresPressure" = none ∧
     r.fields.get? "surfaceType" = none) := by
  simp only [Game.processCarTelemetry, hReady, Bool.not_true, Bool.false_eq_true,
    if_false] at hrun
  split at hrun
  · split at hrun
    · rename_i x1 slots hslice x2 recs0 hmap
      simp only [Option.some.injEq, Prod.mk.injEq] at hrun
      obtain ⟨hrecs, hg1⟩ := hrun
      subst hrecs
      obtain ⟨ds, hds, hfds⟩ := mapOptM_get? _ _ _ hmap i r hr
      have hz := (zip_getElem? _ _ _ _ hds).2
      rw [sliceK_eq_some _ _ _ hslice] at hz
      have hcd : p.carTelemetryData[i]? = some ds.snd :=
        getElem?_take_some _ _ _ _ hz
      rw [hc] at hcd
      obtain rfl := Option.some.inj hcd
      unfold Game.telemetryRecord at hfds
      cases htf : Game.telemetrySlotFields ds.snd with
      | none =>
        rw [htf] at hfds
        simp at hfds
      | some flds =>
        rw [htf] at hfds
        simp only [Option.some.injEq] at hfds
        rw [← hfds]
        exact telemetrySlotFields_spec ds.snd flds htf
    · exact absurd hrun (by simp)
  · exact absurd hrun (by simp)

/-- The record `processCarTelemetry` emits for `gReady` / `pTelC` / `tC`. -/
def telRec0 : Record :=
  { measurement := "CarTelemetryData",
    tags := ⟨[("sessionId", .vStr "S"), ("sessionTime", .vNat 0),
              ("packetId", .vNat 6), ("driver", .vStr "A")]⟩,
    time := "2019-01-01T00:00:00Z",
    fields := ⟨[("speed", .vNat 100),
      ("brakesTemperature_RL", .vNat 11), ("brakesTemperature_RR", .vNat 12),
      ("brakesTemperature_FL", .vNat 13), ("brakesTemperature_FR", .vNat 14),
      ("tyresSurfaceTemperature_RL", .vNat 21), ("tyresSurfaceTemperature_RR", .vNat 22),
      ("tyresSurfaceTemperature_FL", .vNat 23), ("tyresSurfaceTemperature_FR", .vNat 24),
      ("tyresInnerTemperature_RL", .vNat 31), ("tyresInnerTemperature_RR", .vNat 32),
      ("tyresInnerTemperature_FL", .vNat 33), ("tyresInnerTemperature_FR", .vNat 34),
      ("tyresPressure_RL", .vNat 41), ("tyresPressure_RR", .vNat 42),
      ("tyresPressure_FL", .vNat 43), ("tyresPressure_FR", .vNat 44),
      ("surfaceType_RL", .vNat 51), ("surfaceType_RR", .vNat 52),
      ("surfaceType_FL", .vNat 53), ("surfaceType_FR", .vNat 54)]⟩ }

/-- Witness for C7 on the Ready tracker, one driver, one telemetry slot. -/
theorem c7_witness :
    (telRec0.fields.get? "brakesTemperature_RL" = telSlotC.brakesTemperature.get? 0 ∧
     telRec0.fields.get? "brakesTemperature_RR" = telSlotC.brakesTemperature.get? 1 ∧
     telRec0.fields.get? "brakesTemperature_FL" = telSlotC.brakesTemperature.get? 2 ∧
     telRec0.fields.get? "brakesTemperature_FR" = telSlotC.brakesTemperature.get? 3) ∧
    (telRec0.fields.get? "tyresSurfaceTemperature_RL" = telSlotC.tyresSurfaceTemperature.get? 0 ∧
     telRec0.fields.get? "tyresSurfaceTemperature_RR" = telSlotC.tyresSurfaceTemperature.get? 1 ∧
     telRec0.fields.get? "tyresSurfaceTemperature_FL" = telSlotC.tyresSurfaceTemperature.get? 2 ∧
     telRec0.fields.get? "tyresSurfaceTemperature_FR" = telSlotC.tyresSurfaceTemperature.get? 3) ∧
    (telRec0.fields.get? "tyresInnerTemperature_RL" = telSlotC.tyresInnerTemperature.get? 0 ∧
     telRec0.fields.get? "tyresInnerTemperature_RR" = telSlotC.tyresInnerTemperature.get? 1 ∧
     telRec0.fields.get? "tyresInnerTemperature_FL" = telSlotC.tyresInnerTemperature.get? 2 ∧
     telRec0.fields.get? "tyresInnerTemperature_FR" = telSlotC.tyresInnerTemperature.get? 3) ∧
    (telRec0.fields.get? "tyresPressure_RL" = telSlotC.tyresPressure.get? 0 ∧
     telRec0.fields.get? "tyresPressure_RR" = telSlotC.tyresPressure.get? 1 ∧
     telRec0.fields.get? "tyresPressure_FL" = telSlotC.tyresPressure.get? 2 ∧
     telRec0.fields.get? "tyresPressure_FR" = telSlotC.tyresPressure.get? 3) ∧
    (telRec0.fields.get? "surfaceType_RL" = telSlotC.surfaceType.get? 0 ∧
     telRec0.fields.get? "surfaceType_RR" = telSlotC.surfaceType.get? 1 ∧
     telRec0.fields.get? "surfaceType_FL" = telSlotC.surfaceType.get? 2 ∧
     telRec0.fields.get? "surfaceType_FR" = telSlotC.surfaceType.get? 3) ∧
    (telRec0.fields.get? "brakesTemperature" = none ∧
     telRec0.fields.get? "tyresSurfaceTemperature" = none ∧
     telRec0.fields.get? "tyresInnerTemperature" = none ∧
     telRec0.fields.get? "tyresPressure" = none ∧
     telRec0.fields.get? "surfaceType" = none) :=
  c7_telemetry_expansion gReady pTelC tC [telRec0] gReady 0 telRec0 telSlotC
    rfl rfl rfl rfl

/-- C8 (confirmed). A drained datagram shorter than the 23-byte header
is dropped with exactly one logged rejection, adds no records to any batch,
leaves the tracker untouched, and the remaining datagrams of the batch are
processed from that unchanged state. -/
theorem c8_short_datagram_dropped (s : FlushState) (t : Time) (d : Datagram)
    (rest : List (Time × Datagram)) (h : d.len < headerSize) :
    flushRun s ((t, d) :: rest) =
      flushRun { s with logs := s.logs ++ [.tooShort d.len] } rest := by
  have hstep : flushStep s (t, d) =
      some { s with logs := s.logs ++ [.tooShort d.len] } := by
    simp [flushStep, h]
  simp only [flushRun, hstep]

def dShortC : Datagram := ⟨22, .carStatus pStatusC⟩

/-- Witness for C8: a 22-byte datagram (one byte short of the header) is
dropped with one log entry and the following valid datagram still runs. -/
theorem c8_witness :
    flushRun ⟨gReady, ⟨[]⟩, []⟩ [(tC, dShortC), (tC, dStatusC)] =
      flushRun ⟨gReady, ⟨[]⟩, [] ++ [.tooShort dShortC.len]⟩ [(tC, dStatusC)] :=
  c8_short_datagram_dropped ⟨gReady, ⟨[]⟩, []⟩ tC dShortC [(tC, dStatusC)]
    (by decide)

def s0Loop : LoopState := ⟨0, gReady, [], []⟩

def tStamp2 : Time := ⟨2, "2019-01-01T00:00:02Z", "20190101_0000"⟩

/-- C9 (counterexample). The claim says consecutive empty flush ticks
report a growing elapsed time measured from the same previous non-empty
drain.  Run the loop from timer 0: a non-empty drain whose last packet
arrived at time 2, then empty ticks at times 5 and 9.  The observations are
`[3, 4]` — the second empty tick reports `9 - 5`, the gap since the
*previous empty tick*, not `9 - 2 = 7` as the claim requires. -/
theorem c9_counterexample :
    ((runTicks s0Loop [(2, [(tStamp2, dShortC)]), (5, []), (9, [])]).map
      (fun s => s.obs) = some [3, 4]) ∧ ([3, 4] : List Int) ≠ [3, 7] :=
  ⟨rfl, by decide⟩

/-- C9 (amended). At an empty flush tick no Sink write is made and one
inactivity observation of `now - timer` is reported — but the timer is then
reset to `now`, so consecutive empty ticks report the successive inter-tick
gaps (first since the previous drain activity, then since the previous
empty tick), not a growing elapsed time from the last non-empty drain. -/
theorem c9_empty_tick_resets_timer (s : LoopState) (t1 t2 : Int) :
    runTicks s [(t1, []), (t2, [])] =
      some { s with obs := s.obs ++ [t1 - s.timer, t2 - t1], timer := t2 } := by
  simp [runTicks, tickStep]

/-! ## Index safety (claim C10) -/

/-- Well-formedness of a decoded telemetry slot: the five per-wheel arrays
have their wire-format length 4. -/
def wfTelemetrySlot (c : CarTelemetryData) : Bool :=
  c.brakesTemperature.length == 4 && c.tyresSurfaceTemperature.length == 4 &&
    c.tyresInnerTemperature.length == 4 && c.tyresPressure.length == 4 &&
    c.surfaceType.length == 4

/-- Well-formedness of a decoded car-status slot: its fields dict holds
4-element `tyresWear` / `tyresDamage` arrays. -/
def wfStatusSlot (c : CarStatusData) : Bool :=
  (match c.fields.get? "tyresWear" with
   | some (.vArr l) => l.length == 4
   | _ => false) &&
  (match c.fields.get? "tyresDamage" with
   | some (.vArr l) => l.length == 4
   | _ => false)

/-- Well-formedness of a decoded packet, as the fixed wire format
guarantees it: per-car arrays have length 20, per-wheel arrays length 4,
`numActiveCars` never exceeds the 20 payload slots, and the event packet
carries a byte-string event code. -/
def wfPacket : GamePacket → Bool
  | .motion p => p.carMotionData.length == 20 && p.suspensionPosition.length == 4 &&
      p.suspensionVelocity.length == 4 && p.suspensionAcceleration.length == 4 &&
      p.wheelSpeed.length == 4 && p.wheelSlip.length == 4
  | .session _ => true
  | .lap p => p.lapData.length == 20
  | .event p =>
    (match p.fields.get? "eventStringCode" with
     | some (.vBytes _) => true
     | _ => false)
  | .participants p => p.participants.length == 20 && decide (p.numActiveCars ≤ 20)
  | .carSetups p => p.carSetups.length == 20
  | .carTelemetry p =>
    p.carTelemetryData.length == 20 && p.carTelemetryData.all wfTelemetrySlot
  | .carStatus p =>
    p.carStatusData.length == 20 && p.carStatusData.all wfStatusSlot

theorem telemetrySlotFields_isSome (c : CarTelemetryData)
    (h : wfTelemetrySlot c = true) : ∃ m, Game.telemetrySlotFields c = some m := by
  simp only [wfTelemetrySlot, Bool.and_eq_true, beq_iff_eq] at h
  obtain ⟨⟨⟨⟨h1, h2⟩, h3⟩, h4⟩, h5⟩ := h
  obtain ⟨a1, b1, c1, d1, _, hw1⟩ := wheel4_of_len _ h1
  obtain ⟨a2, b2, c2, d2, _, hw2⟩ := wheel4_of_len _ h2
  obtain ⟨a3, b3, c3, d3, _, hw3⟩ := wheel4_of_len _ h3
  obtain ⟨a4, b4, c4, d4, _, hw4⟩ := wheel4_of_len _ h4
  obtain ⟨a5, b5, c5, d5, _, hw5⟩ := wheel4_of_len _ h5
  unfold Game.telemetrySlotFields
  rw [hw1, hw2, hw3, hw4, hw5]
  exact ⟨_, rfl⟩

theorem statusSlotFields_isSome (c : CarStatusData)
    (h : wfStatusSlot c = true) : ∃ m, Game.statusSlotFields c = some m := by
  simp only [wfStatusSlot, Bool.and_eq_true] at h
  obtain ⟨h1, h2⟩ := h
  cases hw : c.fields.get? "tyresWear" with
  | none => rw [hw] at h1; simp at h1
  | some v =>
    rw [hw] at h1
    cases hd : c.fields.get? "tyresDamage" with
    | none => rw [hd] at h2; simp at h2
    | some w =>
      rw [hd] at h2
      cases v with
      | vArr lv =>
        cases w with
        | vArr lw =>
          simp only [beq_iff_eq] at h1 h2
          obtain ⟨av, bv, cv, dv, _, hwv⟩ := wheel4_of_len _ h1
          obtain ⟨aw, bw, cw, dw, _, hww⟩ := wheel4_of_len _ h2
          unfold Game.statusSlotFields
          rw [hw, hd]
          simp only [wheel4OfValue]
          rw [hwv, hww]
          exact ⟨_, rfl⟩
        | vNat n => simp at h2
        | vInt n => simp at h2
        | vStr s => simp at h2
        | vBytes s => simp at h2
        | vNull => simp at h2
      | vNat n => simp at h1
      | vInt n => simp at h1
      | vStr s => simp at h1
      | vBytes s => simp at h1
      | vNull => simp at h1

theorem processMotion_isSome (g : Game) (p : PacketMotionData) (t : Time)
    (hd : g.drivers.length ≤ 20) (hwf : wfPacket (.motion p) = true) :
    ∃ recs, g.processMotion p t = some (recs, (g.isInitializedUpd).snd) := by
  cases hok : (g.isInitializedUpd).fst
  · exact ⟨[], Game.processMotion_notReady g p t hok⟩
  · simp only [wfPacket, Bool.and_eq_true, beq_iff_eq] at hwf
    obtain ⟨⟨⟨⟨⟨h20, hsp⟩, hsv⟩, hsa⟩, hws⟩, hwl⟩ := hwf
    obtain ⟨a1, b1, c1, d1, _, hw1⟩ := wheel4_of_len _ hsp
    obtain ⟨a2, b2, c2, d2, _, hw2⟩ := wheel4_of_len _ hsv
    obtain ⟨a3, b3, c3, d3, _, hw3⟩ := wheel4_of_len _ hsa
    obtain ⟨a4, b4, c4, d4, _, hw4⟩ := wheel4_of_len _ hws
    obtain ⟨a5, b5, c5, d5, _, hw5⟩ := wheel4_of_len _ hwl
    have hm : ∃ m, Game.motionAggFields p = some m := by
      unfold Game.motionAggFields
      rw [hw1, hw2, hw3, hw4, hw5]
      exact ⟨_, rfl⟩
    obtain ⟨m, hm⟩ := hm
    have hs : sliceK p.carMotionData (g.isInitializedUpd).snd.drivers.length =
        some (p.carMotionData.take (g.isInitializedUpd).snd.drivers.length) := by
      apply sliceK_of_le
      rw [Game.isInitializedUpd_snd_drivers, h20]
      exact hd
    exact ⟨_, by
      simp only [Game.processMotion, hok, Bool.not_true, Bool.false_eq_true, if_false]
      rw [hs, hm]⟩

theorem processLap_isSome (g : Game) (p : PacketLapData) (t : Time)
    (hd : g.drivers.length ≤ 20) (hwf : wfPacket (.lap p) = true) :
    ∃ recs, g.processLap p t = some (recs, (g.isInitializedUpd).snd) := by
  cases hok : (g.isInitializedUpd).fst
  · exact ⟨[], Game.processLap_notReady g p t hok⟩
  · simp only [wfPacket, beq_iff_eq] at hwf
    have hs : sliceK p.lapData (g.isInitializedUpd).snd.drivers.length =
        some (p.lapData.take (g.isInitializedUpd).snd.drivers.length) := by
      apply sliceK_of_le
      rw [Game.isInitializedUpd_snd_drivers, hwf]
      exact hd
    exact ⟨_, by
      simp only [Game.processLap, hok, Bool.not_true, Bool.false_eq_true, if_false]
      rw [hs]⟩

theorem processCarSetup_isSome (g : Game) (p : PacketCarSetupData) (t : Time)
    (hd : g.drivers.length ≤ 20) (hwf : wfPacket (.carSetups p) = true) :
    ∃ recs, g.processCarSetup p t = some (recs, (g.isInitializedUpd).snd) := by
  cases hok : (g.isInitializedUpd).fst
  · exact ⟨[], Game.processCarSetup_notReady g p t hok⟩
  · simp only [wfPacket, beq_iff_eq] at hwf
    have hs : sliceK p.carSetups (g.isInitializedUpd).snd.drivers.length =
        some (p.carSetups.take (g.isInitializedUpd).snd.drivers.length) := by
      apply sliceK_of_le
      rw [Game.isInitializedUpd_snd_drivers, hwf]
      exact hd
    exact ⟨_, by
      simp only [Game.processCarSetup, hok, Bool.not_true, Bool.false_eq_true, if_false]
      rw [hs]⟩

theorem processCarTelemetry_isSome (g : Game) (p : PacketCarTelemetryData)
    (t : Time) (hd : g.drivers.length ≤ 20)
    (hwf : wfPacket (.carTelemetry p) = true) :
    ∃ recs, g.processCarTelemetry p t = some (recs, (g.isInitializedUpd).snd) := by
  cases hok : (g.isInitializedUpd).fst
  · exact ⟨[], Game.processCarTelemetry_notReady g p t hok⟩
  · simp only [wfPacket, Bool.and_eq_true, beq_iff_eq] at hwf
    obtain ⟨h20, hall⟩ := hwf
    have hs : sliceK p.carTelemetryData (g.isInitializedUpd).snd.drivers.length =
        some (p.carTelemetryData.take (g.isInitializedUpd).snd.drivers.length) := by
      apply sliceK_of_le
      rw [Game.isInitializedUpd_snd_drivers, h20]
      exact hd
    obtain ⟨ys, hys⟩ := mapOptM_isSome
      (Game.telemetryRecord (g.isInitializedUpd).snd.sessionID p.header t)
      ((g.isInitializedUpd).snd.drivers.zip
        (p.carTelemetryData.take (g.isInitializedUpd).snd.drivers.length))
      (by
        intro x hx
        have hmem : x.snd ∈ p.carTelemetryData :=
          List.take_subset _ _ (List.of_mem_zip hx).2
        have hslot := (List.all_eq_true.mp hall) x.snd hmem
        obtain ⟨m, hm⟩ := telemetrySlotFields_isSome x.snd hslot
        unfold Game.telemetryRecord
        rw [hm]
        rfl)
    exact ⟨_, by
      simp only [Game.processCarTelemetry, hok, Bool.not_true, Bool.false_eq_true,
        if_false]
      simp only [hs, hys]
      rfl⟩

theorem processCarStatus_isSome (g : Game) (p : PacketCarStatusData)
    (t : Time) (hd : g.drivers.length ≤ 20)
    (hwf : wfPacket (.carStatus p) = true) :
    ∃ recs, g.processCarStatus p t = some (recs, (g.isInitializedUpd).snd) := by
  cases hok : (g.isInitializedUpd).fst
  · exact ⟨[], Game.processCarStatus_notReady g p t hok⟩
  · simp only [wfPacket, Bool.and_eq_true, beq_iff_eq] at hwf
    obtain ⟨h20, hall⟩ := hwf
    have hs : sliceK p.carStatusData (g.isInitializedUpd).snd.drivers.length =
        some (p.carStatusData.take (g.isInitializedUpd).snd.drivers.length) := by
      apply sliceK_of_le
      rw [Game.isInitializedUpd_snd_drivers, h20]
      exact hd
    obtain ⟨ys, hys⟩ := mapOptM_isSome
      (Game.statusRecord (g.isInitializedUpd).snd.sessionID p.header t)
      ((g.isInitializedUpd).snd.drivers.zip
        (p.carStatusData.take (g.isInitializedUpd).snd.drivers.length))
      (by
        intro x hx
        have hmem : x.snd ∈ p.carStatusData :=
          List.take_subset _ _ (List.of_mem_zip hx).2
        have hslot := (List.all_eq_true.mp hall) x.snd hmem
        obtain ⟨m, hm⟩ := statusSlotFields_isSome x.snd hslot
        unfold Game.statusRecord
        rw [hm]
        rfl)
    exact ⟨_, by
      simp only [Game.processCarStatus, hok, Bool.not_true, Bool.false_eq_true,
        if_false]
      simp only [hs, hys]
      rfl⟩

theorem processEvent_isSome (g : Game) (p : PacketEventData) (t : Time)
    (hwf : wfPacket (.event p) = true) :
    ∃ recs, g.processEvent p t = some (recs, (g.isInitializedUpd).snd) := by
  cases hok : (g.isInitializedUpd).fst
  · exact ⟨[], Game.processEvent_notReady g p t hok⟩
  · simp only [wfPacket] at hwf
    cases he : p.fields.get? "eventStringCode" with
    | none => rw [he] at hwf; simp at hwf
    | some v =>
      rw [he] at hwf
      cases v with
      | vBytes s =>
        exact ⟨_, by
          simp only [Game.processEvent, hok, Bool.not_true, Bool.false_eq_true,
            if_false]
          rw [he]⟩
      | vNat n => simp at hwf
      | vInt n => simp at hwf
      | vStr s => simp at hwf
      | vNull => simp at hwf
      | vArr l => simp at hwf

theorem processParticipant_isSome (g : Game) (p : PacketParticipantsData)
    (t : Time) (hwf : wfPacket (.participants p) = true) :
    ∃ recs g1, g.processParticipant p t = some (recs, g1) ∧
      g1.drivers.length ≤ 20 := by
  simp only [wfPacket, Bool.and_eq_true, beq_iff_eq, decide_eq_true_eq] at hwf
  obtain ⟨h20, hk⟩ := hwf
  have hle : p.numActiveCars ≤ p.participants.length := by
    rw [h20]
    exact hk
  have hs := sliceK_of_le p.participants p.numActiveCars hle
  have hlen : ((p.participants.take p.numActiveCars).map
      (fun x => x.name)).length ≤ 20 := by
    simp [List.length_take, Nat.min_eq_left hle, hk]
  cases hok : (g.isInitializedUpd).fst
  · exact ⟨[], _, by
      simp only [Game.processParticipant, hok, Bool.not_false, if_true]
      simp only [hs]
      rfl, hlen⟩
  · exact ⟨_, _, by
      simp only [Game.processParticipant, hok, Bool.not_true, Bool.false_eq_true,
        if_false]
      simp only [hs]
      rfl, hlen⟩

/-- Every well-formed packet is processed without an out-of-range index, and
the roster stays within the 20 payload slots. -/
theorem stepPacket_safe (g : Game) (p : GamePacket) (t : Time)
    (hd : g.drivers.length ≤ 20) (hwf : wfPacket p = true) :
    ∃ recs g1, g.stepPacket p t = some (recs, g1) ∧ g1.drivers.length ≤ 20 := by
  have hd2 : (g.isInitializedUpd).snd.drivers.length ≤ 20 := by
    rw [Game.isInitializedUpd_snd_drivers]
    exact hd
  cases p with
  | motion pm =>
    obtain ⟨recs, h⟩ := processMotion_isSome g pm t hd hwf
    exact ⟨recs, _, h, hd2⟩
  | lap pl =>
    obtain ⟨recs, h⟩ := processLap_isSome g pl t hd hwf
    exact ⟨recs, _, h, hd2⟩
  | carSetups pc =>
    obtain ⟨recs, h⟩ := processCarSetup_isSome g pc t hd hwf
    exact ⟨recs, _, h, hd2⟩
  | carTelemetry ptl =>
    obtain ⟨recs, h⟩ := processCarTelemetry_isSome g ptl t hd hwf
    exact ⟨recs, _, h, hd2⟩
  | carStatus pc =>
    obtain ⟨recs, h⟩ := processCarStatus_isSome g pc t hd hwf
    exact ⟨recs, _, h, hd2⟩
  | event pe =>
    obtain ⟨recs, h⟩ := processEvent_isSome g pe t hwf
    exact ⟨recs, _, h, hd2⟩
  | participants pp =>
    exact processParticipant_isSome g pp t hwf
  | session psess =>
    refine ⟨(g.processSession psess t).fst, (g.processSession psess t).snd,
      congrArg some Prod.mk.eta.symm, ?_⟩
    rw [Game.processSession_game, Game.isInitializedUpd_snd_drivers]
    have hdr : ({ (g.mySessionId psess t).snd with
        sessionID := (g.mySessionId psess t).fst } : Game).drivers =
        (g.mySessionId psess t).snd.drivers := rfl
    rw [hdr, Game.mySessionId_snd_drivers]
    exact hd

/-- C10 (confirmed). `processParticipant` reads participant slot `i` for
every `i < numActiveCars` and the per-driver methods index their per-car
payload arrays at every roster position; under the wire-format precondition
that `numActiveCars` never exceeds the 20 payload slots (and payload arrays
have their fixed sizes), every array access in a packet sequence is in
bounds and no processing method fails with an out-of-range index. -/
theorem c10_index_safety :
    ∀ (ps : List (GamePacket × Time)) (g : Game), g.drivers.length ≤ 20 →
      (∀ x ∈ ps, wfPacket x.fst = true) → (runGame g ps).isSome = true := by
  intro ps
  induction ps with
  | nil =>
    intro g _ _
    rfl
  | cons pt rest ih =>
    intro g hd hwf
    obtain ⟨p, t⟩ := pt
    obtain ⟨recs, g1, hstep, hd1⟩ :=
      stepPacket_safe g p t hd (hwf _ (List.mem_cons_self _ _))
    simp only [runGame, hstep]
    exact ih g1 hd1 (fun x hx => hwf x (List.mem_cons_of_mem _ hx))

def pPartW : PacketParticipantsData :=
  { header := mkHeader 4 7, numActiveCars := 2,
    participants := List.replicate 20 ⟨"A", ⟨[]⟩⟩ }

def pLapW : PacketLapData :=
  { header := mkHeader 2 7, lapData := List.replicate 20 ⟨⟨[]⟩⟩ }

/-- Witness for C10: a full wire-format sequence (PARTICIPANTS with 20 slots
and 2 active cars, SESSION, LAP_DATA with 20 slots) runs without failure. -/
theorem c10_witness :
    (runGame Game.initial
      [(.participants pPartW, tC), (.session pSessA, tC),
       (.lap pLapW, tC)]).isSome = true :=
  c10_index_safety _ Game.initial (by decide) (by decide)

end F1Spec
